import Mathlib

/-!
Verification of the configuration-processing core (bit extraction, error
codes, error buffers, validators, setting handler, verification rules,
tag-tree and bit-frame parsing) against its natural-language specification.

The C++ sources are shallowly embedded: machine integers become Nat or Int
with explicit wrap-around where the width matters, unions become inductive
types, fallible calls return Option, and stateful components are modelled
by explicit state passing.
-/

namespace Cfg

/-! ## Bitmasks (utilities/bitwise.h, make_bitmask)

The source computes a bitmask of a given size as the complement of the
complement of zero shifted left, in 32-bit unsigned arithmetic. -/

/-- Embedding of make_bitmask for U = uint32: the complement and the shift
are performed modulo 2^32. -/
def make_bitmask (size : Nat) : Nat :=
  (((2 ^ 32 - 1) <<< size) % 2 ^ 32) ^^^ (2 ^ 32 - 1)

theorem make_bitmask_3 : make_bitmask 3 = 2 ^ 3 - 1 := by decide
theorem make_bitmask_5 : make_bitmask 5 = 2 ^ 5 - 1 := by decide
theorem make_bitmask_8 : make_bitmask 8 = 2 ^ 8 - 1 := by decide
theorem make_bitmask_12 : make_bitmask 12 = 2 ^ 12 - 1 := by decide
theorem make_bitmask_24 : make_bitmask 24 = 2 ^ 24 - 1 := by decide

/-! ## Error codes (error-code.h)

An error code packs a 3-bit category, a 5-bit kind and 24 data bits into
one 32-bit value.  Enumeration values are embedded by their underlying
integers: categories unspecified=0, parsing=1, validation=2,
verification=3; the kind enumerations appear in error-types.h in
declaration order. -/

/-- Conversion of a signed int_fast32_t value to uint32, as performed by
static_cast in the source (reduction modulo 2^32). -/
def int_to_u32 (d : Int) : Nat := (d % (2 ^ 32 : Int)).toNat

/-- Embedding of the private code constructor: the category is masked to 3
bits, shifted up by the kind width, joined with the masked kind, and the
result is shifted above the 24 data bits. -/
def code_base (category_id kind_id : Nat) : Nat :=
  (((category_id &&& make_bitmask 3) <<< 5) ||| (kind_id &&& make_bitmask 5)) <<< 24

/-- Embedding of the public constructor code(ErrorType, int_fast32_t):
the base code joined with the data value masked to 24 bits. -/
def code_mk (category_id kind_id : Nat) (data : Int) : Nat :=
  code_base category_id kind_id ||| (int_to_u32 data &&& make_bitmask 24)

/-- Embedding of the data_segment assignment operator at a given mask and
offset: clear the masked field (complement taken in 32 bits), then join
the masked new value shifted into place. -/
def seg_assign (mask off : Nat) (bits : Nat) (d : Int) : Nat :=
  (bits &&& (((mask <<< off) % 2 ^ 32) ^^^ (2 ^ 32 - 1))) |||
    ((int_to_u32 d &&& mask) <<< off)

/-- Error code carrying a file position: add_error(parsing_error, file_ptr)
assigns the column to the high 12 data bits and the line to the low 12. -/
def code_pos (kind_id : Nat) (column line : Int) : Nat :=
  seg_assign (make_bitmask 12) 0
    (seg_assign (make_bitmask 12) 12 (code_base 1 kind_id) column) line

/-! Decoding functions of the documented 32-bit wire layout:
bits 31..29 category, bits 28..24 kind, bits 23..0 data. -/

def decode_category (v : Nat) : Nat := v >>> 29

def decode_kind (v : Nat) : Nat := (v >>> 24) % 2 ^ 5

def decode_data (v : Nat) : Nat := v % 2 ^ 24

theorem int_to_u32_ofNat (n : Nat) (h : n < 2 ^ 32) : int_to_u32 (n : Int) = n := by
  unfold int_to_u32
  rw [Int.emod_eq_of_lt (by positivity) (by exact_mod_cast h)]
  exact Int.toNat_natCast n

theorem and_mask_eq_mod (x n : Nat) : x &&& (2 ^ n - 1) = x % 2 ^ n :=
  Nat.and_pow_two_sub_one_eq_mod x n

/-- Closed form of a packed error code with in-range arguments. -/
theorem code_mk_eq (c k : Nat) (d : Nat) (hc : c < 2 ^ 3) (hk : k < 2 ^ 5)
    (hd : d < 2 ^ 24) :
    code_mk c k (d : Int) = c * 2 ^ 29 + k * 2 ^ 24 + d := by
  unfold code_mk code_base
  rw [make_bitmask_3, make_bitmask_5, make_bitmask_24,
    and_mask_eq_mod, and_mask_eq_mod,
    int_to_u32_ofNat d (lt_trans hd (by norm_num)), and_mask_eq_mod,
    Nat.mod_eq_of_lt hc, Nat.mod_eq_of_lt hk, Nat.mod_eq_of_lt hd,
    Nat.shiftLeft_eq, Nat.shiftLeft_eq]
  have h1 : c * 2 ^ 5 ||| k = c * 2 ^ 5 + k := by
    rw [Nat.mul_comm c (2 ^ 5), ← Nat.mul_add_lt_is_or hk c, Nat.mul_comm]
  rw [h1]
  have h2 : (c * 2 ^ 5 + k) * 2 ^ 24 ||| d = (c * 2 ^ 5 + k) * 2 ^ 24 + d := by
    rw [Nat.mul_comm _ (2 ^ 24), ← Nat.mul_add_lt_is_or hd, Nat.mul_comm]
  rw [h2]
  ring

/-- Claim C8: packing a (category, kind, data) triple with category below 8,
kind below 32 and data below 2^24 into an error code and decoding the
32-bit value as bits 31..29, 28..24 and 23..0 recovers exactly the
original triple. -/
theorem C8_error_code_roundtrip (c k d : Nat) (hc : c < 8) (hk : k < 32)
    (hd : d < 2 ^ 24) :
    decode_category (code_mk c k (d : Int)) = c ∧
    decode_kind (code_mk c k (d : Int)) = k ∧
    decode_data (code_mk c k (d : Int)) = d := by
  rw [code_mk_eq c k d (by exact_mod_cast hc) (by exact_mod_cast hk) hd]
  unfold decode_category decode_kind decode_data
  refine ⟨?_, ?_, ?_⟩
  · rw [Nat.shiftRight_eq_div_pow]
    have h : c * 2 ^ 29 + k * 2 ^ 24 + d = (k * 2 ^ 24 + d) + c * 2 ^ 29 := by ring
    rw [h, Nat.add_mul_div_right _ _ (by norm_num), Nat.div_eq_of_lt (by nlinarith)]
    omega
  · rw [Nat.shiftRight_eq_div_pow]
    have h : c * 2 ^ 29 + k * 2 ^ 24 + d = d + (c * 2 ^ 5 + k) * 2 ^ 24 := by ring
    rw [h, Nat.add_mul_div_right _ _ (by norm_num), Nat.div_eq_of_lt hd]
    omega
  · have h : c * 2 ^ 29 + k * 2 ^ 24 + d = (c * 2 ^ 5 + k) * 2 ^ 24 + d := by ring
    rw [h, Nat.add_comm, Nat.add_mul_mod_self_right]
    exact Nat.mod_eq_of_lt hd

/-- Witness for C8 at the concrete triple (3, 17, 12345). -/
theorem C8_error_code_roundtrip_witness :
    (3 : Nat) < 8 ∧ (17 : Nat) < 32 ∧ (12345 : Nat) < 2 ^ 24 ∧
    (decode_category (code_mk 3 17 (12345 : Int)) = 3 ∧
     decode_kind (code_mk 3 17 (12345 : Int)) = 17 ∧
     decode_data (code_mk 3 17 (12345 : Int)) = 12345) :=
  ⟨by decide, by decide, by decide,
    C8_error_code_roundtrip 3 17 12345 (by decide) (by decide) (by decide)⟩

/-! ## Error handler (error-handler.h)

The handler stores error codes in a std::array of fixed capacity and
tracks a top iterator.  add_error first writes through the top iterator,
then returns if the limit is reached, else advances the iterator.  When
the buffer is already full the write lands one element past the end of
the array; the model records such an out-of-bounds write in the oob flag
and leaves the stored slots unchanged. -/

structure error_handler where
  cap : Nat
  slots : List Nat
  top : Nat
  oob : Bool
  deriving Repr, DecidableEq

/-- Freshly constructed handler: value-initialized slots, top at begin. -/
def error_handler.mk_fresh (cap : Nat) : error_handler :=
  ⟨cap, List.replicate cap 0, 0, false⟩

/-- Embedding of is_error_limit_reached: top iterator at the end. -/
def error_handler.is_error_limit_reached (h : error_handler) : Bool :=
  h.top = h.cap

/-- Embedding of add_error(error::code): write through the top iterator
(out of bounds when the buffer is full), then advance unless the limit
was reached. -/
def error_handler.add_error (h : error_handler) (c : Nat) : error_handler :=
  if h.top = h.cap then { h with oob := true }
  else { h with slots := h.slots.set h.top c, top := h.top + 1 }

/-- Embedding of clear_errors: the top iterator returns to begin. -/
def error_handler.clear_errors (h : error_handler) : error_handler :=
  { h with top := 0 }

/-- Embedding of contains_errors: the top iterator moved past begin. -/
def error_handler.contains_errors (h : error_handler) : Bool :=
  h.top ≠ 0

/-- Embedding of error_count. -/
def error_handler.error_count (h : error_handler) : Nat := h.top

/-- The stored error codes, in insertion order: the slots up to the top
iterator. -/
def error_handler.error_list (h : error_handler) : List Nat :=
  h.slots.take h.top

/-- Sequencing a list of add_error calls. -/
def error_handler.add_all (h : error_handler) (cs : List Nat) : error_handler :=
  cs.foldl error_handler.add_error h

/-- Claim C2 (evaluation at the failing input): adding three codes to a
fresh buffer of capacity two leaves the first two input codes stored, and
the third add performs an out-of-bounds write instead of overwriting the
last slot; the claimed contents [10, 30] do not arise. -/
theorem C2_error_buffer_saturation_eval :
    (error_handler.add_all (error_handler.mk_fresh 2) [10, 20, 30]).error_list
        = [10, 20] ∧
    (error_handler.add_all (error_handler.mk_fresh 2) [10, 20, 30]).oob = true ∧
    (error_handler.add_all (error_handler.mk_fresh 2) [10, 20, 30]).error_list
        ≠ [10, 30] := by
  decide

/-! ## The master configuration record (main-config.h and its uses)

The framework configuration type itself lives in an external header; its
shape is reconstructed exactly from the field accesses made by the
in-tree sources (default-settings.h, default-verification-rules.h,
main-config.h).  The four trigger blocks are modelled by one record type
holding the union of their fields; appliers and verifiers only ever read
or write the fields their C++ counterparts name. -/

structure write_dest where
  lora : Bool
  sd : Bool
  deriving Repr, DecidableEq

structure sensor_mask where
  thp : Bool
  accel_gyro : Bool
  magnet : Bool
  light : Bool
  deriving Repr, DecidableEq

structure trigger_cfg where
  enable : Bool
  interval_ms : Nat
  low_threshold : Nat
  high_threshold : Nat
  measure : sensor_mask
  lorawan_priority : Int
  write_to : write_dest
  deriving Repr, DecidableEq

structure trigger_set where
  time : trigger_cfg
  light : trigger_cfg
  acceleration : trigger_cfg
  orientation : trigger_cfg
  deriving Repr, DecidableEq

structure bme280_cfg where
  measure_temperature : Bool
  measure_humidity : Bool
  measure_pressure : Bool
  deriving Repr, DecidableEq

structure bmx160_cfg where
  measure_accelerometer : Bool
  measure_gyroscope : Bool
  measure_magnetometer : Bool
  deriving Repr, DecidableEq

structure veml6030_cfg where
  measure_light : Bool
  deriving Repr, DecidableEq

structure framework_cfg where
  usb_detection : Int
  usb_detection_interval_ms : Nat
  trigger : trigger_set
  bme280 : bme280_cfg
  bmx160 : bmx160_cfg
  veml6030 : veml6030_cfg
  status : Nat
  deriving Repr, DecidableEq

structure main_config where
  device_name : List Nat
  framework : framework_cfg
  deriving Repr, DecidableEq

/-! ## Verification rules (default-verification-rules.h, config-handler.h) -/

/-- Verification error kinds, in enumeration order (error-types.h). -/
inductive verification_error where
  | unspecified
  | no_trigger_enabled
  | no_data_destination_enabled
  deriving Repr, DecidableEq

/-- Underlying integer of a verification error. -/
def verification_error.num : verification_error → Nat
  | .unspecified => 0
  | .no_trigger_enabled => 1
  | .no_data_destination_enabled => 2

/-- Embedding of verify_data_destination: a disabled trigger verifies
trivially; an enabled trigger needs the LoRa or the SD sink. -/
def verify_data_destination (t : trigger_cfg) : Option verification_error :=
  if !t.enable then none
  else if t.write_to.lora then none
  else if t.write_to.sd then none
  else some .no_data_destination_enabled

/-- Embedding of is_any_trigger_enabled. -/
def is_any_trigger_enabled (t : trigger_set) : Bool :=
  t.time.enable || t.light.enable || t.acceleration.enable || t.orientation.enable

/-- Embedding of get_default_verification_rules: pairs of a verification
identifier (underlying value) and a verify function, in declaration
order.  Identifiers: trigger_requirement=1, time_trigger=2,
light_trigger=3, acceleration_trigger=4, orientation_trigger=5. -/
def default_verification_rules : List (Nat × (main_config → Option verification_error)) :=
  [ (1, fun config =>
      if is_any_trigger_enabled config.framework.trigger then none
      else some .no_trigger_enabled),
    (2, fun config => verify_data_destination config.framework.trigger.time),
    (3, fun config => verify_data_destination config.framework.trigger.light),
    (4, fun config => verify_data_destination config.framework.trigger.acceleration),
    (5, fun config => verify_data_destination config.framework.trigger.orientation) ]

/-- Embedding of config_handler::verify_main_config: a fresh error handler
sized by the number of rules collects, for each failing rule in order, a
verification error code whose data payload is the rule identifier. -/
def verify_main_config (cfg : main_config) : error_handler :=
  default_verification_rules.foldl
    (fun verification rule =>
      match rule.2 cfg with
      | some error_id =>
          verification.add_error (code_mk 3 error_id.num (rule.1 : Int))
      | none => verification)
    (error_handler.mk_fresh default_verification_rules.length)

/-- The trigger block selected by an index in schema order
(time, light, acceleration, orientation). -/
def trigger_at (t : trigger_set) : Fin 4 → trigger_cfg
  | 0 => t.time
  | 1 => t.light
  | 2 => t.acceleration
  | 3 => t.orientation

/-- The verification identifier of the data-destination rule of the
trigger at a given index. -/
def trigger_rule_id (i : Fin 4) : Nat := i.val + 2

/-- Claim C5: with all four triggers disabled the default rules report
exactly one error, NO_TRIGGER_ENABLED (attributed to the
trigger_requirement rule); with exactly one trigger enabled and both of
its sinks off they report exactly one NO_DATA_DESTINATION_ENABLED error
carrying that trigger rule identifier. -/
theorem C5_verification_totality (cfg : main_config) :
    ((∀ i : Fin 4, (trigger_at cfg.framework.trigger i).enable = false) →
      (verify_main_config cfg).error_list = [code_mk 3 1 (1 : Int)]) ∧
    (∀ i : Fin 4,
      (trigger_at cfg.framework.trigger i).enable = true →
      (∀ j : Fin 4, j ≠ i → (trigger_at cfg.framework.trigger j).enable = false) →
      (trigger_at cfg.framework.trigger i).write_to.lora = false →
      (trigger_at cfg.framework.trigger i).write_to.sd = false →
      (verify_main_config cfg).error_list
        = [code_mk 3 2 (trigger_rule_id i : Int)]) := by
  constructor
  · intro h
    have h0 := h 0
    have h1 := h 1
    have h2 := h 2
    have h3 := h 3
    simp only [trigger_at] at h0 h1 h2 h3
    simp [verify_main_config, default_verification_rules, is_any_trigger_enabled,
      verify_data_destination, h0, h1, h2, h3, error_handler.add_error,
      error_handler.mk_fresh, error_handler.error_list, verification_error.num]
  · intro i hi hothers hlora hsd
    fin_cases i
    · have h1 := hothers 1 (by decide)
      have h2 := hothers 2 (by decide)
      have h3 := hothers 3 (by decide)
      simp only [trigger_at] at h1 h2 h3 hi hlora hsd
      simp [verify_main_config, default_verification_rules, is_any_trigger_enabled,
        verify_data_destination, hi, hlora, hsd, trigger_rule_id, h1, h2, h3,
        error_handler.add_error, error_handler.mk_fresh, error_handler.error_list,
        verification_error.num]
    · have h1 := hothers 0 (by decide)
      have h2 := hothers 2 (by decide)
      have h3 := hothers 3 (by decide)
      simp only [trigger_at] at h1 h2 h3 hi hlora hsd
      simp [verify_main_config, default_verification_rules, is_any_trigger_enabled,
        verify_data_destination, hi, hlora, hsd, trigger_rule_id, h1, h2, h3,
        error_handler.add_error, error_handler.mk_fresh, error_handler.error_list,
        verification_error.num]
    · have h1 := hothers 0 (by decide)
      have h2 := hothers 1 (by decide)
      have h3 := hothers 3 (by decide)
      simp only [trigger_at] at h1 h2 h3 hi hlora hsd
      simp [verify_main_config, default_verification_rules, is_any_trigger_enabled,
        verify_data_destination, hi, hlora, hsd, trigger_rule_id, h1, h2, h3,
        error_handler.add_error, error_handler.mk_fresh, error_handler.error_list,
        verification_error.num]
    · have h1 := hothers 0 (by decide)
      have h2 := hothers 1 (by decide)
      have h3 := hothers 2 (by decide)
      simp only [trigger_at] at h1 h2 h3 hi hlora hsd
      simp [verify_main_config, default_verification_rules, is_any_trigger_enabled,
        verify_data_destination, hi, hlora, hsd, trigger_rule_id, h1, h2, h3,
        error_handler.add_error, error_handler.mk_fresh, error_handler.error_list,
        verification_error.num]

/-- A record with every trigger disabled and sinks off, used to witness
C5. -/
def all_off_config : main_config :=
  { device_name := []
    framework :=
      { usb_detection := 0
        usb_detection_interval_ms := 0
        trigger :=
          { time := ⟨false, 0, 0, 0, ⟨false, false, false, false⟩, 0, ⟨false, false⟩⟩
            light := ⟨false, 0, 0, 0, ⟨false, false, false, false⟩, 0, ⟨false, false⟩⟩
            acceleration := ⟨false, 0, 0, 0, ⟨false, false, false, false⟩, 0, ⟨false, false⟩⟩
            orientation := ⟨false, 0, 0, 0, ⟨false, false, false, false⟩, 0, ⟨false, false⟩⟩ }
        bme280 := ⟨false, false, false⟩
        bmx160 := ⟨false, false, false⟩
        veml6030 := ⟨false⟩
        status := 0 } }

/-- The all-off record with only the time trigger enabled. -/
def time_only_config : main_config :=
  { all_off_config with
    framework :=
      { all_off_config.framework with
        trigger :=
          { all_off_config.framework.trigger with
            time := { all_off_config.framework.trigger.time with enable := true } } } }

/-- Witness for C5: evaluated on the all-off record and on the record with
only the time trigger enabled and no sinks. -/
theorem C5_verification_totality_witness :
    (verify_main_config all_off_config).error_list = [code_mk 3 1 (1 : Int)] ∧
    (verify_main_config time_only_config).error_list = [code_mk 3 2 (2 : Int)] :=
  ⟨(C5_verification_totality all_off_config).1 (by decide),
   (C5_verification_totality time_only_config).2 0 (by decide)
     (by decide) (by decide) (by decide)⟩

/-! ## Validators (validation-rules.h, setting-validators.h, bitwise.h)

Buffers are byte lists; characters are embedded by their ASCII values. -/

/-- Validation modes (validation-mode.h). -/
inductive validation_mode where
  | config_file
  | config_message
  deriving Repr, DecidableEq

/-- Validation error kinds, in enumeration order (error-types.h). -/
inductive validation_error where
  | unspecified
  | setting_unset
  | contains_invalid_character
  | missing_value
  | negative_value
  | exceeds_max_length
  | out_of_type_range
  | below_type_range
  | above_type_range
  | below_min_threshold
  | above_max_threshold
  | invalid_option
  deriving Repr, DecidableEq

/-- Underlying integer of a validation error. -/
def validation_error.num : validation_error → Nat
  | .unspecified => 0
  | .setting_unset => 1
  | .contains_invalid_character => 2
  | .missing_value => 3
  | .negative_value => 4
  | .exceeds_max_length => 5
  | .out_of_type_range => 6
  | .below_type_range => 7
  | .above_type_range => 8
  | .below_min_threshold => 9
  | .above_max_threshold => 10
  | .invalid_option => 11

/-- Embedding of the setting_data union (setting.h): one constructor per
admissible member; the schema guarantees producer and consumer agree on
the active member. -/
inductive setting_data where
  | string (s : List Nat)
  | int32 (v : Int)
  | uint32 (v : Nat)
  | int16 (v : Int)
  | uint16 (v : Nat)
  | int8 (v : Int)
  | uint8 (v : Nat)
  | flag (b : Bool)
  deriving Repr, DecidableEq

/-- Union member reads, as performed by the appliers.  The default values
never arise in the schema, where producer and consumer members match. -/
def setting_data.get_flag : setting_data → Bool
  | .flag b => b
  | _ => false

def setting_data.get_int8 : setting_data → Int
  | .int8 v => v
  | _ => 0

def setting_data.get_uint16 : setting_data → Nat
  | .uint16 v => v
  | _ => 0

def setting_data.get_uint32 : setting_data → Nat
  | .uint32 v => v
  | _ => 0

def setting_data.get_int32 : setting_data → Int
  | .int32 v => v
  | _ => 0

def setting_data.get_string : setting_data → List Nat
  | .string s => s
  | _ => []

/-- Embedding of validate_result<T> (validation-rules.h): optional data
and an optional validation error. -/
structure validate_result (α : Type) where
  data : Option α
  error : Option validation_error
  deriving Repr, DecidableEq

/-- The arithmetic types instantiating the range validator in the default
schema: bool, int8_t, uint16_t, uint32_t. -/
inductive num_ty where
  | bool_t
  | i8
  | u16
  | u32
  deriving Repr, DecidableEq

/-- sizeof(T). -/
def num_ty.bytes : num_ty → Nat
  | .bool_t => 1
  | .i8 => 1
  | .u16 => 2
  | .u32 => 4

/-- std::numeric_limits<T>::min(), as an integer. -/
def num_ty.tmin : num_ty → Int
  | .bool_t => 0
  | .i8 => -128
  | .u16 => 0
  | .u32 => 0

/-- std::numeric_limits<T>::max(), as an integer. -/
def num_ty.tmax : num_ty → Int
  | .bool_t => 1
  | .i8 => 127
  | .u16 => 65535
  | .u32 => 4294967295

/-- Little-endian byte value of a buffer (memcpy of its bytes into the
low bytes of an integer object). -/
def le_bytes : List Nat → Nat
  | [] => 0
  | b :: bs => b % 256 + 256 * le_bytes bs

/-- Reading of a width-bits two-complement pattern as a signed value. -/
def to_signed (bits : Nat) (n : Nat) : Int :=
  if n < 2 ^ (bits - 1) then (n : Int) else (n : Int) - 2 ^ bits

/-- Embedding of convert_bits<T> (bitwise.h): a view longer than sizeof(T)
yields a value-initialized T, i.e. zero; otherwise the view bytes are
memcpy-ed over a zero T, giving the little-endian value of the view. -/
def convert_bits (t : num_ty) (view : List Nat) : Int :=
  if view.length > t.bytes then 0
  else
    match t with
    | .bool_t => if le_bytes view ≠ 0 then 1 else 0
    | .i8 => to_signed 8 (le_bytes view)
    | .u16 => le_bytes view
    | .u32 => le_bytes view

/-- Embedding of validate_value_range<T> (validation-rules.h): boolean
values skip the threshold comparison; the converted value is returned as
data in every branch. -/
def validate_value_range (t : num_ty) (v : Int) (mn mx : Int) : validate_result Int :=
  if t = .bool_t then ⟨some v, none⟩
  else if v < mn then ⟨some v, some .below_min_threshold⟩
  else if v > mx then ⟨some v, some .above_max_threshold⟩
  else ⟨some v, none⟩

/-- ASCII decimal digit test. -/
def is_digit (c : Nat) : Bool := 48 ≤ c && c ≤ 57

/-- Value of the maximal ASCII digit prefix, with accumulator. -/
def digits_value : List Nat → Nat → Nat
  | [], acc => acc
  | c :: cs, acc => if is_digit c then digits_value cs (acc * 10 + (c - 48)) else acc

/-- Embedding of std::from_chars at base 10 into a type with bounds
[tmin, tmax]: none encodes errc::invalid_argument, some none encodes
errc::result_out_of_range, some (some v) a successful conversion.  A
minus sign is accepted only for signed types. -/
def from_chars_int (signed : Bool) (tmin tmax : Int) (cs : List Nat) :
    Option (Option Int) :=
  match cs with
  | [] => none
  | c :: rest =>
    if c = 45 ∧ signed then
      match rest with
      | [] => none
      | d :: _ =>
        if is_digit d then
          let v : Int := -(digits_value rest 0 : Nat)
          if v < tmin then some none else some (some v)
        else none
    else if is_digit c then
      let v : Int := (digits_value cs 0 : Nat)
      if v > tmax then some none else some (some v)
    else none

/-- Embedding of validate_value<T> (validation-rules.h): empty buffers are
missing values; the text is converted with from_chars (booleans through
uint8_t); conversion failures map to invalid-character or out-of-range
errors with empty data; a boolean above one is out of range; otherwise
the converted value goes through the range check. -/
def validate_value (t : num_ty) (mn mx : Int) (value : List Nat) : validate_result Int :=
  if value = [] then ⟨none, some .missing_value⟩
  else
    match from_chars_int (t = .i8) (if t = .bool_t then 0 else t.tmin)
        (if t = .bool_t then 255 else t.tmax) value with
    | none => ⟨none, some .contains_invalid_character⟩
    | some none => ⟨none, some .out_of_type_range⟩
    | some (some v) =>
      if t = .bool_t ∧ v > 1 then ⟨none, some .out_of_type_range⟩
      else validate_value_range t v mn mx

/-- The setting_data member produced for a value of type T, following the
overloaded setting_data constructors. -/
def num_data (t : num_ty) (v : Int) : setting_data :=
  match t with
  | .bool_t => .flag (v ≠ 0)
  | .i8 => .int8 v
  | .u16 => .uint16 v.toNat
  | .u32 => .uint32 v.toNat

/-- The implicit conversion of validate_result<T> to
validate_result<setting_data>. -/
def map_result (f : Int → setting_data) (r : validate_result Int) :
    validate_result setting_data :=
  ⟨r.data.map f, r.error⟩

/-- Embedding of the validate<T, MinMax...> dispatcher
(setting-validators.h): file mode parses the text, message mode range
checks the bits of the buffer converted by convert_bits<T>. -/
def validate_num (t : num_ty) (mn mx : Int) (value : List Nat)
    (mode : validation_mode) : validate_result setting_data :=
  map_result (num_data t)
    (match mode with
     | .config_file => validate_value t mn mx value
     | .config_message => validate_value_range t (convert_bits t value) mn mx)

/-- Alphanumeric ASCII test (std::isalnum in the C locale). -/
def is_alnum (c : Nat) : Bool :=
  (48 ≤ c && c ≤ 57) || (65 ≤ c && c ≤ 90) || (97 ≤ c && c ≤ 122)

/-- Embedding of contains_special_character (string-scanning.h) at the
default exceptions "()-_". -/
def contains_special_character (source : List Nat) : Bool :=
  !source.all fun c => is_alnum c || c = 40 || c = 41 || c = 45 || c = 95

/-- Embedding of validate_name (validation-rules.h), composed with the
dispatch_validator conversion to setting_data. -/
def validate_name (name : List Nat) : validate_result setting_data :=
  if name = [] then ⟨none, some .missing_value⟩
  else if contains_special_character name then
    ⟨none, some .contains_invalid_character⟩
  else ⟨some (.string name), none⟩

/-- ASCII byte values of a string literal. -/
def ascii (s : String) : List Nat := s.data.map Char.toNat

/-- Underlying values of the external USB_DETECTION enumeration; the
exact numbers are irrelevant to the claims and are modelled as 0, 1, 2. -/
def usb_on_val : Int := 0
def usb_interval_val : Int := 1
def usb_off_val : Int := 2

/-- Embedding of validate_usb (validation-rules.h), composed with the
dispatch_validator conversion to setting_data. -/
def validate_usb (option : List Nat) : validate_result setting_data :=
  if option = [] then ⟨none, some .missing_value⟩
  else if option = ascii "on" then ⟨some (.int32 usb_on_val), none⟩
  else if option = ascii "interval" then ⟨some (.int32 usb_interval_val), none⟩
  else if option = ascii "off" then ⟨some (.int32 usb_off_val), none⟩
  else ⟨none, some .invalid_option⟩

/-- Claim C1 (evaluation at the failing input): the bit-frame parser
stores eight little-endian bytes, and for every type T of the schema
sizeof(T) is below eight, so convert_bits returns a value-initialized
zero instead of the first sizeof(T) bytes; MESSAGE-mode validation of the
uint16 range validator on the buffer encoding 5 checks and caches 0,
although the first two stored bytes encode 5. -/
theorem C1_message_mode_checks_zero :
    (∀ b0 b1 b2 b3 b4 b5 b6 b7 : Nat, ∀ t : num_ty,
      convert_bits t [b0, b1, b2, b3, b4, b5, b6, b7] = 0) ∧
    validate_num .u16 0 65535 [5, 0, 0, 0, 0, 0, 0, 0] .config_message
      = ⟨some (.uint16 0), none⟩ ∧
    le_bytes (List.take 2 [5, 0, 0, 0, 0, 0, 0, 0]) = 5 := by
  refine ⟨?_, by decide, by decide⟩
  intro b0 b1 b2 b3 b4 b5 b6 b7 t
  cases t <;> simp [convert_bits, num_ty.bytes]

/-! ## Settings (setting.h) and the setting handler (setting-handler.h) -/

/-- Severity of a setting (setting.h, setting_type). -/
inductive setting_type where
  | required
  | optional
  deriving Repr, DecidableEq

/-- Embedding of a schema entry: identifier (underlying value), severity,
bitspan, validator, action, and the buffered value view (empty when the
setting was never set). -/
structure lsetting where
  id : Nat
  stype : setting_type
  bits_pos : Nat
  bits_size : Nat
  validator : List Nat → validation_mode → validate_result setting_data
  action : setting_data → main_config → main_config
  value : List Nat

/-- Embedding of setting::is_set: the value view is nonempty. -/
def lsetting.is_set (s : lsetting) : Bool := s.value ≠ []

/-- Embedding of setting::validate together with its effect on the
mutable cache: an unset setting returns setting_unset and leaves the
cache untouched; otherwise the validator runs and its optional data is
assigned to the cache unconditionally. -/
def setting_validate (s : lsetting) (mode : validation_mode)
    (cache : Option setting_data) : Option validation_error × Option setting_data :=
  if s.value = [] then (some .setting_unset, cache)
  else
    let r := s.validator s.value mode
    (r.error, r.data)

/-- Embedding of zcopy_max (algorithm.h): copy at most
min(len(source)+1, count) - 1 elements and a terminator over the front
of the destination. -/
def zcopy_max (source : List Nat) (count : Nat) (dest : List Nat) : List Nat :=
  let count_max := min (source.length + 1) count
  if count_max > 0 then source.take (count_max - 1) ++ [0] ++ dest.drop count_max
  else dest

/-- Embedding of setting_handler::handle_invalid_setting: setting_unset
on an optional setting is dropped; setting_unset on a required setting
goes to the unset buffer; every other error goes to the invalid-value
buffer.  The code payload is the setting identifier. -/
def handle_invalid_setting (s : lsetting) (err : validation_error)
    (unset invalid : error_handler) : error_handler × error_handler :=
  match err with
  | .setting_unset =>
    if s.stype = .optional then (unset, invalid)
    else (unset.add_error (code_mk 2 err.num (s.id : Int)), invalid)
  | _ => (unset, invalid.add_error (code_mk 2 err.num (s.id : Int)))

/-- One iteration of setting_handler::apply_valid_settings: validate the
setting, on failure record the error, on success apply the action with
the freshly cached data. -/
def apply_valid_step (mode : validation_mode)
    (st : main_config × error_handler × error_handler) (s : lsetting) :
    main_config × error_handler × error_handler :=
  match setting_validate s mode none with
  | (some err, _) =>
    let (u, i) := handle_invalid_setting s err st.2.1 st.2.2
    (st.1, u, i)
  | (none, cache) => (s.action (cache.getD (.flag false)) st.1, st.2)

/-- Embedding of setting_handler::apply_valid_settings over a list of
settings in schema order. -/
def apply_valid_settings (mode : validation_mode) (settings : List lsetting)
    (cfg : main_config) (unset invalid : error_handler) :
    main_config × error_handler × error_handler :=
  settings.foldl (apply_valid_step mode) (cfg, unset, invalid)

/-! ## The default schema (default-settings.h)

The 38 settings in declaration order.  Identifiers follow the
setting_identifier enumeration (device_name = 1 up to
orientation_trigger_write_to_sd = 38); buffers are supplied by position
through the bufs argument, mirroring the value views filled by the
parsers.  Tag paths are not modelled here: the handler never reads
them. -/

def default_settings (bufs : Nat → List Nat) : List lsetting :=
  [ { id := 1, stype := .optional, bits_pos := 0, bits_size := 0,
      validator := fun v _ => validate_name v,
      action := fun d cfg =>
        { cfg with device_name :=
            zcopy_max d.get_string cfg.device_name.length cfg.device_name },
      value := bufs 0 },
    { id := 2, stype := .required, bits_pos := 24, bits_size := 2,
      validator := fun v _ => validate_usb v,
      action := fun d cfg => { cfg with framework.usb_detection := d.get_int32 },
      value := bufs 1 },
    { id := 3, stype := .required, bits_pos := 32, bits_size := 32,
      validator := validate_num .u32 1000 4294967295,
      action := fun d cfg =>
        { cfg with framework.usb_detection_interval_ms := d.get_uint32 },
      value := bufs 2 },
    { id := 4, stype := .required, bits_pos := 26, bits_size := 1,
      validator := validate_num .bool_t 0 1,
      action := fun d cfg => { cfg with framework.trigger.time.enable := d.get_flag },
      value := bufs 3 },
    { id := 5, stype := .required, bits_pos := 64, bits_size := 32,
      validator := validate_num .u32 1000 4294967295,
      action := fun d cfg =>
        { cfg with framework.trigger.time.interval_ms := d.get_uint32 },
      value := bufs 4 },
    { id := 6, stype := .required, bits_pos := 8, bits_size := 1,
      validator := validate_num .bool_t 0 1,
      action := fun d cfg =>
        if cfg.framework.trigger.time.enable then
          { cfg with framework.bme280.measure_temperature := d.get_flag,
                     framework.bme280.measure_humidity := d.get_flag,
                     framework.bme280.measure_pressure := d.get_flag,
                     framework.trigger.time.measure.thp := d.get_flag }
        else
          { cfg with framework.bme280.measure_temperature := false,
                     framework.bme280.measure_humidity := false,
                     framework.bme280.measure_pressure := false,
                     framework.trigger.time.measure.thp := false },
      value := bufs 5 },
    { id := 7, stype := .required, bits_pos := 9, bits_size := 1,
      validator := validate_num .bool_t 0 1,
      action := fun d cfg =>
        if cfg.framework.trigger.time.enable then
          { cfg with framework.bmx160.measure_accelerometer := d.get_flag,
                     framework.bmx160.measure_gyroscope := d.get_flag,
                     framework.trigger.time.measure.accel_gyro := d.get_flag }
        else
          { cfg with framework.bmx160.measure_accelerometer := false,
                     framework.bmx160.measure_gyroscope := false,
                     framework.trigger.time.measure.accel_gyro := false },
      value := bufs 6 },
    { id := 8, stype := .required, bits_pos := 10, bits_size := 1,
      validator := validate_num .bool_t 0 1,
      action := fun d cfg =>
        if cfg.framework.trigger.time.enable then
          { cfg with framework.bmx160.measure_magnetometer := d.get_flag,
                     framework.trigger.time.measure.magnet := d.get_flag }
        else
          { cfg with framework.bmx160.measure_magnetometer := false,
                     framework.trigger.time.measure.magnet := false },
      value := bufs 7 },
    { id := 9, stype := .required, bits_pos := 11, bits_size := 1,
      validator := validate_num .bool_t 0 1,
      action := fun d cfg =>
        if cfg.framework.trigger.time.enable then
          { cfg with framework.veml6030.measure_light := d.get_flag,
                     framework.trigger.time.measure.light := d.get_flag }
        else
          { cfg with framework.veml6030.measure_light := false,
                     framework.trigger.time.measure.light := false },
      value := bufs 8 },
    { id := 10, stype := .required, bits_pos := 128, bits_size := 2,
      validator := validate_num .i8 0 3,
      action := fun d cfg =>
        { cfg with framework.trigger.time.lorawan_priority := d.get_int8 },
      value := bufs 9 },
    { id := 11, stype := .required, bits_pos := 130, bits_size := 1,
      validator := validate_num .bool_t 0 1,
      action := fun d cfg =>
        { cfg with framework.trigger.time.write_to.lora := d.get_flag },
      value := bufs 10 },
    { id := 12, stype := .required, bits_pos := 131, bits_size := 1,
      validator := validate_num .bool_t 0 1,
      action := fun d cfg =>
        { cfg with framework.trigger.time.write_to.sd := d.get_flag },
      value := bufs 11 },
    { id := 13, stype := .required, bits_pos := 27, bits_size := 1,
      validator := validate_num .bool_t 0 1,
      action := fun d cfg => { cfg with framework.trigger.light.enable := d.get_flag },
      value := bufs 12 },
    { id := 14, stype := .required, bits_pos := 112, bits_size := 16,
      validator := validate_num .u16 0 65535,
      action := fun d cfg =>
        { cfg with framework.trigger.light.low_threshold := d.get_uint16 },
      value := bufs 13 },
    { id := 15, stype := .required, bits_pos := 96, bits_size := 16,
      validator := validate_num .u16 0 65535,
      action := fun d cfg =>
        { cfg with framework.trigger.light.high_threshold := d.get_uint16 },
      value := bufs 14 },
    { id := 16, stype := .required, bits_pos := 12, bits_size := 1,
      validator := validate_num .bool_t 0 1,
      action := fun d cfg =>
        if cfg.framework.trigger.light.enable then
          { cfg with framework.trigger.light.measure.thp := d.get_flag }
        else
          { cfg with framework.trigger.light.measure.thp := false },
      value := bufs 15 },
    { id := 17, stype := .required, bits_pos := 13, bits_size := 1,
      validator := validate_num .bool_t 0 1,
      action := fun d cfg =>
        if cfg.framework.trigger.light.enable then
          { cfg with framework.trigger.light.measure.accel_gyro := d.get_flag }
        else
          { cfg with framework.trigger.light.measure.accel_gyro := false },
      value := bufs 16 },
    { id := 18, stype := .required, bits_pos := 14, bits_size := 1,
      validator := validate_num .bool_t 0 1,
      action := fun d cfg =>
        if cfg.framework.trigger.light.enable then
          { cfg with framework.trigger.light.measure.magnet := d.get_flag }
        else
          { cfg with framework.trigger.light.measure.magnet := false },
      value := bufs 17 },
    { id := 19, stype := .required, bits_pos := 15, bits_size := 1,
      validator := validate_num .bool_t 0 1,
      action := fun d cfg =>
        if cfg.framework.trigger.light.enable then
          { cfg with framework.trigger.light.measure.light := d.get_flag }
        else
          { cfg with framework.trigger.light.measure.light := false },
      value := bufs 18 },
    { id := 20, stype := .required, bits_pos := 132, bits_size := 2,
      validator := validate_num .i8 0 3,
      action := fun d cfg =>
        { cfg with framework.trigger.light.lorawan_priority := d.get_int8 },
      value := bufs 19 },
    { id := 21, stype := .required, bits_pos := 134, bits_size := 1,
      validator := validate_num .bool_t 0 1,
      action := fun d cfg =>
        { cfg with framework.trigger.light.write_to.lora := d.get_flag },
      value := bufs 20 },
    { id := 22, stype := .required, bits_pos := 135, bits_size := 1,
      validator := validate_num .bool_t 0 1,
      action := fun d cfg =>
        { cfg with framework.trigger.light.write_to.sd := d.get_flag },
      value := bufs 21 },
    { id := 23, stype := .required, bits_pos := 28, bits_size := 1,
      validator := validate_num .bool_t 0 1,
      action := fun d cfg =>
        { cfg with framework.trigger.acceleration.enable := d.get_flag },
      value := bufs 22 },
    { id := 24, stype := .required, bits_pos := 16, bits_size := 1,
      validator := validate_num .bool_t 0 1,
      action := fun d cfg =>
        if cfg.framework.trigger.acceleration.enable then
          { cfg with framework.trigger.acceleration.measure.thp := d.get_flag }
        else
          { cfg with framework.trigger.acceleration.measure.thp := false },
      value := bufs 23 },
    { id := 25, stype := .required, bits_pos := 17, bits_size := 1,
      validator := validate_num .bool_t 0 1,
      action := fun d cfg =>
        if cfg.framework.trigger.acceleration.enable then
          { cfg with framework.trigger.acceleration.measure.accel_gyro := d.get_flag }
        else
          { cfg with framework.trigger.acceleration.measure.accel_gyro := false },
      value := bufs 24 },
    { id := 26, stype := .required, bits_pos := 18, bits_size := 1,
      validator := validate_num .bool_t 0 1,
      action := fun d cfg =>
        if cfg.framework.trigger.acceleration.enable then
          { cfg with framework.trigger.acceleration.measure.magnet := d.get_flag }
        else
          { cfg with framework.trigger.acceleration.measure.magnet := false },
      value := bufs 25 },
    { id := 27, stype := .required, bits_pos := 19, bits_size := 1,
      validator := validate_num .bool_t 0 1,
      action := fun d cfg =>
        if cfg.framework.trigger.acceleration.enable then
          { cfg with framework.trigger.acceleration.measure.light := d.get_flag }
        else
          { cfg with framework.trigger.acceleration.measure.light := false },
      value := bufs 26 },
    { id := 28, stype := .required, bits_pos := 136, bits_size := 2,
      validator := validate_num .i8 0 3,
      action := fun d cfg =>
        { cfg with framework.trigger.acceleration.lorawan_priority := d.get_int8 },
      value := bufs 27 },
    { id := 29, stype := .required, bits_pos := 138, bits_size := 1,
      validator := validate_num .bool_t 0 1,
      action := fun d cfg =>
        { cfg with framework.trigger.acceleration.write_to.lora := d.get_flag },
      value := bufs 28 },
    { id := 30, stype := .required, bits_pos := 139, bits_size := 1,
      validator := validate_num .bool_t 0 1,
      action := fun d cfg =>
        { cfg with framework.trigger.acceleration.write_to.sd := d.get_flag },
      value := bufs 29 },
    { id := 31, stype := .required, bits_pos := 29, bits_size := 1,
      validator := validate_num .bool_t 0 1,
      action := fun d cfg =>
        { cfg with framework.trigger.orientation.enable := d.get_flag },
      value := bufs 30 },
    { id := 32, stype := .required, bits_pos := 20, bits_size := 1,
      validator := validate_num .bool_t 0 1,
      action := fun d cfg =>
        if cfg.framework.trigger.orientation.enable then
          { cfg with framework.trigger.orientation.measure.thp := d.get_flag }
        else
          { cfg with framework.trigger.orientation.measure.thp := false },
      value := bufs 31 },
    { id := 33, stype := .required, bits_pos := 21, bits_size := 1,
      validator := validate_num .bool_t 0 1,
      action := fun d cfg =>
        if cfg.framework.trigger.orientation.enable then
          { cfg with framework.trigger.orientation.measure.accel_gyro := d.get_flag }
        else
          { cfg with framework.trigger.orientation.measure.accel_gyro := false },
      value := bufs 32 },
    { id := 34, stype := .required, bits_pos := 22, bits_size := 1,
      validator := validate_num .bool_t 0 1,
      action := fun d cfg =>
        if cfg.framework.trigger.orientation.enable then
          { cfg with framework.trigger.orientation.measure.magnet := d.get_flag }
        else
          { cfg with framework.trigger.orientation.measure.magnet := false },
      value := bufs 33 },
    { id := 35, stype := .required, bits_pos := 23, bits_size := 1,
      validator := validate_num .bool_t 0 1,
      action := fun d cfg =>
        if cfg.framework.trigger.orientation.enable then
          { cfg with framework.trigger.orientation.measure.light := d.get_flag }
        else
          { cfg with framework.trigger.orientation.measure.light := false },
      value := bufs 34 },
    { id := 36, stype := .required, bits_pos := 140, bits_size := 2,
      validator := validate_num .i8 0 3,
      action := fun d cfg =>
        { cfg with framework.trigger.orientation.lorawan_priority := d.get_int8 },
      value := bufs 35 },
    { id := 37, stype := .required, bits_pos := 142, bits_size := 1,
      validator := validate_num .bool_t 0 1,
      action := fun d cfg =>
        { cfg with framework.trigger.orientation.write_to.lora := d.get_flag },
      value := bufs 36 },
    { id := 38, stype := .required, bits_pos := 143, bits_size := 1,
      validator := validate_num .bool_t 0 1,
      action := fun d cfg =>
        { cfg with framework.trigger.orientation.write_to.sd := d.get_flag },
      value := bufs 37 } ]

/-- A placeholder entry, used only as the out-of-range default of list
indexing. -/
def null_setting : lsetting :=
  { id := 0, stype := .required, bits_pos := 0, bits_size := 0,
    validator := fun _ _ => ⟨none, none⟩,
    action := fun _ cfg => cfg,
    value := [] }

/-- The schema entry at a given position. -/
def setting_at (bufs : Nat → List Nat) (i : Nat) : lsetting :=
  (default_settings bufs).getD i null_setting

/-! ## Claim C3: the cache-population invariant -/

theorem validate_value_range_populated (t : num_ty) (w mn mx : Int) :
    (validate_value_range t w mn mx).data ≠ none ∧
    ((validate_value_range t w mn mx).error = none ∨
     (validate_value_range t w mn mx).error = some .below_min_threshold ∨
     (validate_value_range t w mn mx).error = some .above_max_threshold) := by
  unfold validate_value_range
  split_ifs <;> simp

theorem validate_value_populated (t : num_ty) (mn mx : Int) (v : List Nat) :
    ((validate_value t mn mx v).data ≠ none ↔
      ((validate_value t mn mx v).error = none ∨
       (validate_value t mn mx v).error = some .below_min_threshold ∨
       (validate_value t mn mx v).error = some .above_max_threshold)) := by
  unfold validate_value
  split
  · simp
  · split
    · simp
    · simp
    · rename_i w hw
      split_ifs with h2
      · simp
      · have hr := validate_value_range_populated t w mn mx
        simp [hr.1]
        exact hr.2

theorem validate_num_populated (t : num_ty) (mn mx : Int) (v : List Nat)
    (mode : validation_mode) :
    ((validate_num t mn mx v mode).data ≠ none ↔
      ((validate_num t mn mx v mode).error = none ∨
       (validate_num t mn mx v mode).error = some .below_min_threshold ∨
       (validate_num t mn mx v mode).error = some .above_max_threshold)) := by
  cases mode
  · simp only [validate_num, map_result]
    have h := validate_value_populated t mn mx v
    simp only [ne_eq, Option.map_eq_none']
    exact h
  · simp only [validate_num, map_result]
    have h := validate_value_range_populated t (convert_bits t v) mn mx
    simp only [ne_eq, Option.map_eq_none']
    simp [h.1]
    exact h.2

theorem validate_name_populated (v : List Nat) :
    ((validate_name v).data ≠ none ↔
      ((validate_name v).error = none ∨
       (validate_name v).error = some .below_min_threshold ∨
       (validate_name v).error = some .above_max_threshold)) := by
  unfold validate_name
  split_ifs <;> simp

theorem validate_usb_populated (v : List Nat) :
    ((validate_usb v).data ≠ none ↔
      ((validate_usb v).error = none ∨
       (validate_usb v).error = some .below_min_threshold ∨
       (validate_usb v).error = some .above_max_threshold)) := by
  unfold validate_usb
  split_ifs <;> simp

theorem validate_call_iff (s : lsetting) (mode : validation_mode)
    (cache : Option setting_data)
    (hval : ∀ v m, ((s.validator v m).data ≠ none ↔
      ((s.validator v m).error = none ∨
       (s.validator v m).error = some .below_min_threshold ∨
       (s.validator v m).error = some .above_max_threshold))) :
    (s.value = [] →
      setting_validate s mode cache = (some .setting_unset, cache)) ∧
    (s.value ≠ [] →
      ((setting_validate s mode cache).2 ≠ none ↔
        ((setting_validate s mode cache).1 = none ∨
         (setting_validate s mode cache).1 = some .below_min_threshold ∨
         (setting_validate s mode cache).1 = some .above_max_threshold))) := by
  constructor
  · intro h
    simp [setting_validate, h]
  · intro h
    simp only [setting_validate, if_neg h]
    exact hval s.value mode

/-- Claim C3 (amended): for every setting of the default schema, a
validate call on an unset setting returns setting_unset and leaves the
cache unchanged; on a set setting the cache ends populated if and only
if the validator returned Ok or one of the two range-threshold errors
(which carry the converted value as data). -/
theorem C3_cache_population_amended (bufs : Nat → List Nat) (i : Nat) (hi : i < 38)
    (mode : validation_mode) (cache : Option setting_data) :
    ((setting_at bufs i).value = [] →
      setting_validate (setting_at bufs i) mode cache = (some .setting_unset, cache)) ∧
    ((setting_at bufs i).value ≠ [] →
      ((setting_validate (setting_at bufs i) mode cache).2 ≠ none ↔
        ((setting_validate (setting_at bufs i) mode cache).1 = none ∨
         (setting_validate (setting_at bufs i) mode cache).1 = some .below_min_threshold ∨
         (setting_validate (setting_at bufs i) mode cache).1
            = some .above_max_threshold))) := by
  interval_cases i <;>
    exact validate_call_iff _ mode cache fun v m => by
      first
      | exact validate_num_populated _ _ _ v m
      | exact validate_name_populated v
      | exact validate_usb_populated v

/-- Buffers providing the lorawan-priority setting of the time trigger
with the text 7, everything else unset. -/
def c3_bufs : Nat → List Nat := fun i => if i = 9 then ascii "7" else []

/-- Counterexample to claim C3 as stated: validating the
time_trigger_lora_priority setting (range validator over int8 with
thresholds 0 and 3) on the buffered text 7 returns the validation error
above_max_threshold and nevertheless populates the cache, with the
out-of-range value 7. -/
theorem C3_cache_populated_despite_error :
    setting_validate (setting_at c3_bufs 9) .config_file none
      = (some .above_max_threshold, some (.int8 7)) ∧
    (some (setting_data.int8 7) : Option setting_data) ≠ none := by
  constructor
  · rfl
  · simp

/-- Witness for the amended C3 at setting 9 of the default schema with
the concrete buffer 7: an error is reported and the cache is populated. -/
theorem C3_cache_population_amended_witness :
    (setting_at c3_bufs 9).value ≠ [] ∧
    ((setting_validate (setting_at c3_bufs 9) .config_file none).2 ≠ none ↔
      ((setting_validate (setting_at c3_bufs 9) .config_file none).1 = none ∨
       (setting_validate (setting_at c3_bufs 9) .config_file none).1
          = some .below_min_threshold ∨
       (setting_validate (setting_at c3_bufs 9) .config_file none).1
          = some .above_max_threshold)) :=
  ⟨by decide,
   (C3_cache_population_amended c3_bufs 9 (by decide) .config_file none).2 (by decide)⟩

/-! ## Claim C9: contributions of unset settings -/

theorem take_succ_set (l : List Nat) (n : Nat) (a : Nat) (h : n < l.length) :
    (l.set n a).take (n + 1) = l.take n ++ [a] := by
  induction l generalizing n with
  | nil => simp at h
  | cons x xs ih =>
    cases n with
    | zero => simp
    | succ m =>
      simp only [List.set, List.take, List.cons_append, List.cons.injEq, true_and]
      exact ih m (by simpa using h)

theorem add_error_push (h : error_handler) (c : Nat)
    (hlen : h.slots.length = h.cap) (hlt : h.top < h.cap) :
    (h.add_error c).error_list = h.error_list ++ [c] ∧
    (h.add_error c).top = h.top + 1 ∧
    (h.add_error c).slots.length = h.cap ∧
    (h.add_error c).cap = h.cap := by
  unfold error_handler.add_error
  rw [if_neg (by omega)]
  refine ⟨?_, rfl, by simpa using hlen, rfl⟩
  simp only [error_handler.error_list]
  exact take_succ_set h.slots h.top c (by omega)

theorem handle_invalid_other (s : lsetting) (e : validation_error)
    (u inv : error_handler) (hne : e ≠ .setting_unset) :
    handle_invalid_setting s e u inv
      = (u, inv.add_error (code_mk 2 e.num (s.id : Int))) := by
  cases e <;> simp [handle_invalid_setting] at hne ⊢

/-- The error buffers produced by one handler pass, for any list of
settings whose validators never return setting_unset and with room left
in both buffers: the unset buffer collects exactly one SETTING_UNSET
code per required unset setting, carrying the setting identifier, and
the invalid-value buffer collects exactly the validator errors of the
set settings. -/
theorem pass_error_lists (mode : validation_mode) :
    ∀ (l : List lsetting) (cfg : main_config) (u inv : error_handler),
    (∀ s ∈ l, ∀ m, (s.validator s.value m).error ≠ some .setting_unset) →
    u.slots.length = u.cap → u.top + l.length ≤ u.cap →
    inv.slots.length = inv.cap → inv.top + l.length ≤ inv.cap →
    (apply_valid_settings mode l cfg u inv).2.1.error_list
      = u.error_list ++
        (l.filter fun s => decide (s.value = [] ∧ s.stype = .required)).map
          (fun s => code_mk 2 1 (s.id : Int)) ∧
    (apply_valid_settings mode l cfg u inv).2.2.error_list
      = inv.error_list ++
        (l.filter fun s => decide (s.value ≠ [])).filterMap
          (fun s => (s.validator s.value mode).error.map
            fun e => code_mk 2 e.num (s.id : Int)) := by
  intro l
  induction l with
  | nil => intro cfg u inv _ _ _ _ _; simp [apply_valid_settings]
  | cons s rest ih =>
    intro cfg u inv hval hulen hucap hilen hicap
    have hvs := hval s (List.mem_cons_self s rest)
    have hvrest : ∀ x ∈ rest, ∀ m, (x.validator x.value m).error ≠ some .setting_unset :=
      fun x hx => hval x (List.mem_cons_of_mem s hx)
    simp only [apply_valid_settings, List.foldl_cons]
    by_cases hv : s.value = []
    · have hstep : setting_validate s mode none = (some .setting_unset, none) := by
        simp [setting_validate, hv]
      cases hst : s.stype with
      | optional =>
        have : apply_valid_step mode (cfg, u, inv) s = (cfg, u, inv) := by
          simp [apply_valid_step, hstep, handle_invalid_setting, hst]
        rw [this]
        have := ih cfg u inv hvrest hulen (by simpa using Nat.le_of_succ_le hucap)
          hilen (by simpa using Nat.le_of_succ_le hicap)
        simpa [hv, hst] using this
      | required =>
        have hpush := add_error_push u (code_mk 2 1 (s.id : Int)) hulen
          (by simp at hucap; omega)
        have : apply_valid_step mode (cfg, u, inv) s
            = (cfg, u.add_error (code_mk 2 1 (s.id : Int)), inv) := by
          simp [apply_valid_step, hstep, handle_invalid_setting, hst,
            validation_error.num]
        rw [this]
        have hrec := ih cfg (u.add_error (code_mk 2 1 (s.id : Int))) inv hvrest
          (by rw [hpush.2.2.1, hpush.2.2.2])
          (by rw [hpush.2.1, hpush.2.2.2]; simp at hucap; omega)
          hilen (by simpa using Nat.le_of_succ_le hicap)
        simp only [apply_valid_settings] at hrec
        rw [hrec.1, hrec.2, hpush.1]
        constructor
        · simp [hv, hst, List.append_assoc]
        · simp [hv]
    · have hstep : setting_validate s mode none
          = ((s.validator s.value mode).error, (s.validator s.value mode).data) := by
        simp [setting_validate, hv]
      cases he : (s.validator s.value mode).error with
      | none =>
        have : apply_valid_step mode (cfg, u, inv) s
            = (s.action (((s.validator s.value mode).data).getD (.flag false)) cfg,
               u, inv) := by
          simp [apply_valid_step, hstep, he]
        rw [this]
        have hrec := ih
          (s.action ((s.validator s.value mode).data.getD (setting_data.flag false)) cfg)
          u inv hvrest hulen (by simpa using Nat.le_of_succ_le hucap)
          hilen (by simpa using Nat.le_of_succ_le hicap)
        simp only [apply_valid_settings] at hrec
        rw [hrec.1, hrec.2]
        constructor
        · simp [hv]
        · simp [hv, he]
      | some e =>
        have hene : e ≠ .setting_unset := by
          intro hcon
          exact hvs mode (by rw [he, hcon])
        have hpush := add_error_push inv (code_mk 2 e.num (s.id : Int)) hilen
          (by simp at hicap; omega)
        have : apply_valid_step mode (cfg, u, inv) s
            = (cfg, u, inv.add_error (code_mk 2 e.num (s.id : Int))) := by
          simp [apply_valid_step, hstep, he, handle_invalid_other s e u inv hene]
        rw [this]
        have hrec := ih cfg u (inv.add_error (code_mk 2 e.num (s.id : Int))) hvrest
          hulen (by simpa using Nat.le_of_succ_le hucap)
          (by rw [hpush.2.2.1, hpush.2.2.2])
          (by rw [hpush.2.1, hpush.2.2.2]; simp at hicap; omega)
        simp only [apply_valid_settings] at hrec
        rw [hrec.1, hrec.2, hpush.1]
        constructor
        · simp [hv]
        · simp [hv, he, List.append_assoc]

theorem validate_num_ne_unset (t : num_ty) (mn mx : Int) (v : List Nat)
    (mode : validation_mode) :
    (validate_num t mn mx v mode).error ≠ some .setting_unset := by
  cases mode
  · simp only [validate_num, map_result]
    unfold validate_value validate_value_range
    repeat' split
    all_goals simp
  · simp only [validate_num, map_result]
    unfold validate_value_range
    repeat' split
    all_goals simp

theorem validate_name_ne_unset (v : List Nat) :
    (validate_name v).error ≠ some .setting_unset := by
  unfold validate_name
  split_ifs <;> simp

theorem validate_usb_ne_unset (v : List Nat) :
    (validate_usb v).error ≠ some .setting_unset := by
  unfold validate_usb
  split_ifs <;> simp

theorem default_validators_ne_unset (bufs : Nat → List Nat) :
    ∀ s ∈ default_settings bufs, ∀ m,
      (s.validator s.value m).error ≠ some .setting_unset := by
  intro s hs m
  fin_cases hs <;>
    first
    | exact validate_num_ne_unset _ _ _ _ m
    | exact validate_name_ne_unset _
    | exact validate_usb_ne_unset _

/-- Claim C9: over the default schema, for any buffers and any validation
mode, the unset-setting error buffer of a fresh handler pass holds
exactly one SETTING_UNSET code per required never-written setting, in
schema order, with the setting identifier as the 24-bit payload; and the
invalid-value buffer receives contributions only from written settings
(in particular an unwritten optional setting contributes no error at
all). -/
theorem C9_unset_setting_errors (bufs : Nat → List Nat) (mode : validation_mode)
    (cfg : main_config) :
    (apply_valid_settings mode (default_settings bufs) cfg
        (error_handler.mk_fresh 38) (error_handler.mk_fresh 38)).2.1.error_list
      = ((default_settings bufs).filter
          fun s => decide (s.value = [] ∧ s.stype = .required)).map
            (fun s => code_mk 2 1 (s.id : Int)) ∧
    (apply_valid_settings mode (default_settings bufs) cfg
        (error_handler.mk_fresh 38) (error_handler.mk_fresh 38)).2.2.error_list
      = ((default_settings bufs).filter fun s => decide (s.value ≠ [])).filterMap
          (fun s => (s.validator s.value mode).error.map
            fun e => code_mk 2 e.num (s.id : Int)) := by
  have hlen : (default_settings bufs).length = 38 := by simp [default_settings]
  have h := pass_error_lists mode (default_settings bufs) cfg
    (error_handler.mk_fresh 38) (error_handler.mk_fresh 38)
    (default_validators_ne_unset bufs)
    (by simp [error_handler.mk_fresh])
    (by simp [error_handler.mk_fresh, hlen])
    (by simp [error_handler.mk_fresh])
    (by simp [error_handler.mk_fresh, hlen])
  simpa [error_handler.mk_fresh, error_handler.error_list] using h

/-! ## Claim C6: the schema-order application contract -/

/-- State of the handler pass after the first k settings of the default
schema have been processed. -/
def pass_state (mode : validation_mode) (bufs : Nat → List Nat)
    (st : main_config × error_handler × error_handler) (k : Nat) :
    main_config × error_handler × error_handler :=
  ((default_settings bufs).take k).foldl (apply_valid_step mode) st

theorem mem_drop_of_get {α : Type} :
    ∀ (l : List α) (i n : Nat) (h : n < l.length), i ≤ n →
      l.get ⟨n, h⟩ ∈ l.drop i := by
  intro l i
  induction i generalizing l with
  | zero =>
    intro n h _
    simp only [List.drop_zero]
    exact List.get_mem l n h
  | succ m ih =>
    intro n h hin
    cases l with
    | nil => simp at h
    | cons a as =>
      cases n with
      | zero => omega
      | succ k =>
        simp only [List.drop_succ_cons]
        simpa using ih as k (by simpa using h) (by omega)

theorem setting_at_eq_get (bufs : Nat → List Nat) (n : Nat)
    (h : n < (default_settings bufs).length) :
    (default_settings bufs).get ⟨n, h⟩ = setting_at bufs n := by
  simp [setting_at, List.get_eq_getElem, List.getD_eq_getElem?_getD,
    List.getElem?_eq_getElem h]

theorem pass_state_succ (mode : validation_mode) (bufs : Nat → List Nat)
    (st0 : main_config × error_handler × error_handler) (n : Nat)
    (hn : n < 38) :
    pass_state mode bufs st0 (n + 1)
      = apply_valid_step mode (pass_state mode bufs st0 n) (setting_at bufs n) := by
  have hlen : (default_settings bufs).length = 38 := by simp [default_settings]
  have htake : (default_settings bufs).take (n + 1)
      = (default_settings bufs).take n ++ [setting_at bufs n] := by
    rw [← List.take_concat_get' _ n (by omega)]
    congr 1
    rw [← setting_at_eq_get bufs n (by omega)]
    simp [List.get_eq_getElem]
  unfold pass_state
  rw [htake, List.foldl_append]
  simp

/-- Once a predicate is established by the step at schema position j and
preserved by every later step, it holds at every later pass state. -/
theorem pass_pred_from (mode : validation_mode) (bufs : Nat → List Nat)
    (st0 : main_config × error_handler × error_handler) (j : Nat) (hj : j < 38)
    (P : main_config × error_handler × error_handler → Prop)
    (hset : ∀ st, P (apply_valid_step mode st (setting_at bufs j)))
    (hpres : ∀ s ∈ (default_settings bufs).drop (j + 1), ∀ st,
      P st → P (apply_valid_step mode st s)) :
    ∀ k, j < k → P (pass_state mode bufs st0 k) := by
  have hlen : (default_settings bufs).length = 38 := by simp [default_settings]
  intro k
  induction k with
  | zero => intro h; exact absurd h (Nat.not_lt_zero j)
  | succ n ih =>
    intro hn
    by_cases hend : n < 38
    · rw [pass_state_succ mode bufs st0 n hend]
      by_cases hjn : j = n
      · subst hjn
        exact hset _
      · have hmem : setting_at bufs n ∈ (default_settings bufs).drop (j + 1) := by
          rw [← setting_at_eq_get bufs n (by omega)]
          exact mem_drop_of_get _ _ _ _ (by omega)
        exact hpres _ hmem _ (ih (by omega))
    · have hsat : (default_settings bufs).take (n + 1)
          = (default_settings bufs).take n := by
        rw [List.take_of_length_le (by omega), List.take_of_length_le (by omega)]
      unfold pass_state
      rw [hsat]
      exact ih (by omega)

theorem pres_time_enable (mode : validation_mode) (bufs : Nat → List Nat) :
    ∀ s ∈ (default_settings bufs).drop 4, ∀ st,
      st.1.framework.trigger.time.enable = false →
      (apply_valid_step mode st s).1.framework.trigger.time.enable = false := by
  intro s hs
  fin_cases hs <;>
    · intro st h
      unfold apply_valid_step
      split
      · exact h
      · first
        | exact h
        | simp [apply_ite, h]

theorem pres_light_enable (mode : validation_mode) (bufs : Nat → List Nat) :
    ∀ s ∈ (default_settings bufs).drop 13, ∀ st,
      st.1.framework.trigger.light.enable = false →
      (apply_valid_step mode st s).1.framework.trigger.light.enable = false := by
  intro s hs
  fin_cases hs <;>
    · intro st h
      unfold apply_valid_step
      split
      · exact h
      · first
        | exact h
        | simp [apply_ite, h]

theorem pres_accel_enable (mode : validation_mode) (bufs : Nat → List Nat) :
    ∀ s ∈ (default_settings bufs).drop 23, ∀ st,
      st.1.framework.trigger.acceleration.enable = false →
      (apply_valid_step mode st s).1.framework.trigger.acceleration.enable = false := by
  intro s hs
  fin_cases hs <;>
    · intro st h
      unfold apply_valid_step
      split
      · exact h
      · first
        | exact h
        | simp [apply_ite, h]

theorem pres_orient_enable (mode : validation_mode) (bufs : Nat → List Nat) :
    ∀ s ∈ (default_settings bufs).drop 31, ∀ st,
      st.1.framework.trigger.orientation.enable = false →
      (apply_valid_step mode st s).1.framework.trigger.orientation.enable = false := by
  intro s hs
  fin_cases hs <;>
    · intro st h
      unfold apply_valid_step
      split
      · exact h
      · first
        | exact h
        | simp [apply_ite, h]

/-- Claim C6: in the default schema, whenever a trigger-enabled setting is
validated successfully with value false and applied, the record keeps
that trigger state false at every later point of the same pass, so every
later-declared sensor-mask applier of that trigger that runs observes
false and forces its sensor-mask fields to false, regardless of its own
validated value.  Stated for all four triggers; schema positions: time
enabled 3 with sensors 5-8, light enabled 12 with sensors 15-18,
acceleration enabled 22 with sensors 23-26, orientation enabled 30 with
sensors 31-34. -/
theorem C6_enable_false_forces_masks (mode : validation_mode)
    (bufs : Nat → List Nat) (st0 : main_config × error_handler × error_handler) :
    (∀ d, setting_validate (setting_at bufs 3) mode none = (none, some d) →
      d.get_flag = false →
      (∀ k, 3 < k →
        (pass_state mode bufs st0 k).1.framework.trigger.time.enable = false) ∧
      ((setting_validate (setting_at bufs 5) mode none).1 = none →
        (pass_state mode bufs st0 6).1.framework.trigger.time.measure.thp = false ∧
        (pass_state mode bufs st0 6).1.framework.bme280.measure_temperature = false ∧
        (pass_state mode bufs st0 6).1.framework.bme280.measure_humidity = false ∧
        (pass_state mode bufs st0 6).1.framework.bme280.measure_pressure = false) ∧
      ((setting_validate (setting_at bufs 6) mode none).1 = none →
        (pass_state mode bufs st0 7).1.framework.trigger.time.measure.accel_gyro
            = false ∧
        (pass_state mode bufs st0 7).1.framework.bmx160.measure_accelerometer
            = false ∧
        (pass_state mode bufs st0 7).1.framework.bmx160.measure_gyroscope = false) ∧
      ((setting_validate (setting_at bufs 7) mode none).1 = none →
        (pass_state mode bufs st0 8).1.framework.trigger.time.measure.magnet = false ∧
        (pass_state mode bufs st0 8).1.framework.bmx160.measure_magnetometer
            = false) ∧
      ((setting_validate (setting_at bufs 8) mode none).1 = none →
        (pass_state mode bufs st0 9).1.framework.trigger.time.measure.light = false ∧
        (pass_state mode bufs st0 9).1.framework.veml6030.measure_light = false)) ∧
    (∀ d, setting_validate (setting_at bufs 12) mode none = (none, some d) →
      d.get_flag = false →
      (∀ k, 12 < k →
        (pass_state mode bufs st0 k).1.framework.trigger.light.enable = false) ∧
      ((setting_validate (setting_at bufs 15) mode none).1 = none →
        (pass_state mode bufs st0 16).1.framework.trigger.light.measure.thp
          = false) ∧
      ((setting_validate (setting_at bufs 16) mode none).1 = none →
        (pass_state mode bufs st0 17).1.framework.trigger.light.measure.accel_gyro
          = false) ∧
      ((setting_validate (setting_at bufs 17) mode none).1 = none →
        (pass_state mode bufs st0 18).1.framework.trigger.light.measure.magnet
          = false) ∧
      ((setting_validate (setting_at bufs 18) mode none).1 = none →
        (pass_state mode bufs st0 19).1.framework.trigger.light.measure.light
          = false)) ∧
    (∀ d, setting_validate (setting_at bufs 22) mode none = (none, some d) →
      d.get_flag = false →
      (∀ k, 22 < k →
        (pass_state mode bufs st0 k).1.framework.trigger.acceleration.enable
          = false) ∧
      ((setting_validate (setting_at bufs 23) mode none).1 = none →
        (pass_state mode bufs st0 24).1.framework.trigger.acceleration.measure.thp
          = false) ∧
      ((setting_validate (setting_at bufs 24) mode none).1 = none →
        (pass_state mode bufs st0
          25).1.framework.trigger.acceleration.measure.accel_gyro = false) ∧
      ((setting_validate (setting_at bufs 25) mode none).1 = none →
        (pass_state mode bufs st0 26).1.framework.trigger.acceleration.measure.magnet
          = false) ∧
      ((setting_validate (setting_at bufs 26) mode none).1 = none →
        (pass_state mode bufs st0 27).1.framework.trigger.acceleration.measure.light
          = false)) ∧
    (∀ d, setting_validate (setting_at bufs 30) mode none = (none, some d) →
      d.get_flag = false →
      (∀ k, 30 < k →
        (pass_state mode bufs st0 k).1.framework.trigger.orientation.enable
          = false) ∧
      ((setting_validate (setting_at bufs 31) mode none).1 = none →
        (pass_state mode bufs st0 32).1.framework.trigger.orientation.measure.thp
          = false) ∧
      ((setting_validate (setting_at bufs 32) mode none).1 = none →
        (pass_state mode bufs st0
          33).1.framework.trigger.orientation.measure.accel_gyro = false) ∧
      ((setting_validate (setting_at bufs 33) mode none).1 = none →
        (pass_state mode bufs st0 34).1.framework.trigger.orientation.measure.magnet
          = false) ∧
      ((setting_validate (setting_at bufs 34) mode none).1 = none →
        (pass_state mode bufs st0 35).1.framework.trigger.orientation.measure.light
          = false)) := by
  refine ⟨?_, ?_, ?_, ?_⟩
  · intro d h3 hd
    have hPk : ∀ k, 3 < k →
        (pass_state mode bufs st0 k).1.framework.trigger.time.enable = false := by
      refine pass_pred_from mode bufs st0 3 (by norm_num) _ ?_
        (pres_time_enable mode bufs)
      intro st
      unfold apply_valid_step
      rw [h3]
      exact hd
    refine ⟨hPk, ?_, ?_, ?_, ?_⟩ <;> intro hok
    · have hobs := hPk 5 (by norm_num)
      have hpair : setting_validate (setting_at bufs 5) mode none
          = (none, (setting_validate (setting_at bufs 5) mode none).2) := by
        rw [← hok]
      rw [pass_state_succ mode bufs st0 5 (by norm_num)]
      unfold apply_valid_step
      rw [hpair]
      simp [setting_at, default_settings, hobs]
    · have hobs := hPk 6 (by norm_num)
      have hpair : setting_validate (setting_at bufs 6) mode none
          = (none, (setting_validate (setting_at bufs 6) mode none).2) := by
        rw [← hok]
      rw [pass_state_succ mode bufs st0 6 (by norm_num)]
      unfold apply_valid_step
      rw [hpair]
      simp [setting_at, default_settings, hobs]
    · have hobs := hPk 7 (by norm_num)
      have hpair : setting_validate (setting_at bufs 7) mode none
          = (none, (setting_validate (setting_at bufs 7) mode none).2) := by
        rw [← hok]
      rw [pass_state_succ mode bufs st0 7 (by norm_num)]
      unfold apply_valid_step
      rw [hpair]
      simp [setting_at, default_settings, hobs]
    · have hobs := hPk 8 (by norm_num)
      have hpair : setting_validate (setting_at bufs 8) mode none
          = (none, (setting_validate (setting_at bufs 8) mode none).2) := by
        rw [← hok]
      rw [pass_state_succ mode bufs st0 8 (by norm_num)]
      unfold apply_valid_step
      rw [hpair]
      simp [setting_at, default_settings, hobs]
  · intro d h3 hd
    have hPk : ∀ k, 12 < k →
        (pass_state mode bufs st0 k).1.framework.trigger.light.enable = false := by
      refine pass_pred_from mode bufs st0 12 (by norm_num) _ ?_
        (pres_light_enable mode bufs)
      intro st
      unfold apply_valid_step
      rw [h3]
      exact hd
    refine ⟨hPk, ?_, ?_, ?_, ?_⟩ <;> intro hok
    · have hobs := hPk 15 (by norm_num)
      have hpair : setting_validate (setting_at bufs 15) mode none
          = (none, (setting_validate (setting_at bufs 15) mode none).2) := by
        rw [← hok]
      rw [pass_state_succ mode bufs st0 15 (by norm_num)]
      unfold apply_valid_step
      rw [hpair]
      simp [setting_at, default_settings, hobs]
    · have hobs := hPk 16 (by norm_num)
      have hpair : setting_validate (setting_at bufs 16) mode none
          = (none, (setting_validate (setting_at bufs 16) mode none).2) := by
        rw [← hok]
      rw [pass_state_succ mode bufs st0 16 (by norm_num)]
      unfold apply_valid_step
      rw [hpair]
      simp [setting_at, default_settings, hobs]
    · have hobs := hPk 17 (by norm_num)
      have hpair : setting_validate (setting_at bufs 17) mode none
          = (none, (setting_validate (setting_at bufs 17) mode none).2) := by
        rw [← hok]
      rw [pass_state_succ mode bufs st0 17 (by norm_num)]
      unfold apply_valid_step
      rw [hpair]
      simp [setting_at, default_settings, hobs]
    · have hobs := hPk 18 (by norm_num)
      have hpair : setting_validate (setting_at bufs 18) mode none
          = (none, (setting_validate (setting_at bufs 18) mode none).2) := by
        rw [← hok]
      rw [pass_state_succ mode bufs st0 18 (by norm_num)]
      unfold apply_valid_step
      rw [hpair]
      simp [setting_at, default_settings, hobs]
  · intro d h3 hd
    have hPk : ∀ k, 22 < k →
        (pass_state mode bufs st0 k).1.framework.trigger.acceleration.enable
          = false := by
      refine pass_pred_from mode bufs st0 22 (by norm_num) _ ?_
        (pres_accel_enable mode bufs)
      intro st
      unfold apply_valid_step
      rw [h3]
      exact hd
    refine ⟨hPk, ?_, ?_, ?_, ?_⟩ <;> intro hok
    · have hobs := hPk 23 (by norm_num)
      have hpair : setting_validate (setting_at bufs 23) mode none
          = (none, (setting_validate (setting_at bufs 23) mode none).2) := by
        rw [← hok]
      rw [pass_state_succ mode bufs st0 23 (by norm_num)]
      unfold apply_valid_step
      rw [hpair]
      simp [setting_at, default_settings, hobs]
    · have hobs := hPk 24 (by norm_num)
      have hpair : setting_validate (setting_at bufs 24) mode none
          = (none, (setting_validate (setting_at bufs 24) mode none).2) := by
        rw [← hok]
      rw [pass_state_succ mode bufs st0 24 (by norm_num)]
      unfold apply_valid_step
      rw [hpair]
      simp [setting_at, default_settings, hobs]
    · have hobs := hPk 25 (by norm_num)
      have hpair : setting_validate (setting_at bufs 25) mode none
          = (none, (setting_validate (setting_at bufs 25) mode none).2) := by
        rw [← hok]
      rw [pass_state_succ mode bufs st0 25 (by norm_num)]
      unfold apply_valid_step
      rw [hpair]
      simp [setting_at, default_settings, hobs]
    · have hobs := hPk 26 (by norm_num)
      have hpair : setting_validate (setting_at bufs 26) mode none
          = (none, (setting_validate (setting_at bufs 26) mode none).2) := by
        rw [← hok]
      rw [pass_state_succ mode bufs st0 26 (by norm_num)]
      unfold apply_valid_step
      rw [hpair]
      simp [setting_at, default_settings, hobs]
  · intro d h3 hd
    have hPk : ∀ k, 30 < k →
        (pass_state mode bufs st0 k).1.framework.trigger.orientation.enable
          = false := by
      refine pass_pred_from mode bufs st0 30 (by norm_num) _ ?_
        (pres_orient_enable mode bufs)
      intro st
      unfold apply_valid_step
      rw [h3]
      exact hd
    refine ⟨hPk, ?_, ?_, ?_, ?_⟩ <;> intro hok
    · have hobs := hPk 31 (by norm_num)
      have hpair : setting_validate (setting_at bufs 31) mode none
          = (none, (setting_validate (setting_at bufs 31) mode none).2) := by
        rw [← hok]
      rw [pass_state_succ mode bufs st0 31 (by norm_num)]
      unfold apply_valid_step
      rw [hpair]
      simp [setting_at, default_settings, hobs]
    · have hobs := hPk 32 (by norm_num)
      have hpair : setting_validate (setting_at bufs 32) mode none
          = (none, (setting_validate (setting_at bufs 32) mode none).2) := by
        rw [← hok]
      rw [pass_state_succ mode bufs st0 32 (by norm_num)]
      unfold apply_valid_step
      rw [hpair]
      simp [setting_at, default_settings, hobs]
    · have hobs := hPk 33 (by norm_num)
      have hpair : setting_validate (setting_at bufs 33) mode none
          = (none, (setting_validate (setting_at bufs 33) mode none).2) := by
        rw [← hok]
      rw [pass_state_succ mode bufs st0 33 (by norm_num)]
      unfold apply_valid_step
      rw [hpair]
      simp [setting_at, default_settings, hobs]
    · have hobs := hPk 34 (by norm_num)
      have hpair : setting_validate (setting_at bufs 34) mode none
          = (none, (setting_validate (setting_at bufs 34) mode none).2) := by
        rw [← hok]
      rw [pass_state_succ mode bufs st0 34 (by norm_num)]
      unfold apply_valid_step
      rw [hpair]
      simp [setting_at, default_settings, hobs]

/-- Buffers for the C6 witness: every trigger-enabled setting holds the
text 0, every sensor-mask setting holds the text 1, the rest are unset. -/
def c6_bufs : Nat → List Nat := fun i =>
  if i = 3 ∨ i = 12 ∨ i = 22 ∨ i = 30 then ascii "0"
  else if i = 5 ∨ i = 6 ∨ i = 7 ∨ i = 8 ∨ (15 ≤ i ∧ i ≤ 18) ∨ (23 ≤ i ∧ i ≤ 26)
      ∨ (31 ≤ i ∧ i ≤ 34) then ascii "1"
  else []

/-- Witness for C6: in FILE mode with enabled = 0 and sensor values = 1,
starting from the all-off record and fresh error buffers, the time thp
applier runs after the enabled applier and still forces the mask to
false. -/
theorem C6_enable_false_forces_masks_witness :
    (pass_state .config_file c6_bufs
      (all_off_config, error_handler.mk_fresh 38, error_handler.mk_fresh 38)
      6).1.framework.trigger.time.measure.thp = false :=
  (((C6_enable_false_forces_masks .config_file c6_bufs
      (all_off_config, error_handler.mk_fresh 38, error_handler.mk_fresh 38)).1
    (.flag false) (by decide) (by decide)).2.1 (by decide)).1

/-! ## Bit extraction (bitwise.h, extract_bits) and claim C7

The source iterates byte-by-byte with mutable pos, size, result and
offset; the model carries that state through a recursion on the loop
count.  The accumulator is a uint_fast64_t, so the shift wraps modulo
2^64 (the wrap never fires for spans of at most 64 bits, which the
round-trip proof establishes along the way). -/

/-- One-for-one embedding of the for-loop of extract_bits: each
iteration joins the low bits of the current byte into the accumulator,
advances to the next byte boundary and shifts the accumulator left by
min(size, 8) for the bits still to come. -/
def extract_loop (src : Nat → Nat) : Nat → Nat × Nat × Nat → Nat × Nat × Nat
  | 0, st => st
  | n + 1, (pos, size, result) =>
    let offset := pos % 8
    let r1 := result ||| (src (pos / 8) &&& (255 >>> offset))
    let pos2 := pos + (8 - offset)
    let size2 := size - (8 - offset)
    let r2 := (r1 <<< min size2 8) % 2 ^ 64
    extract_loop src n (pos2, size2, r2)

/-- Embedding of extract_bits: run the loop (size + offset - 1) / 8
times, then join the final byte shifted right by the trailing slack. -/
def extract_bits (src : Nat → Nat) (pos size : Nat) : Nat :=
  let offset := pos % 8
  let count := (size + offset - 1) / 8
  let st := extract_loop src count (pos, size, 0)
  let offset2 := st.1 % 8
  let span := 8 - (offset2 + st.2.1)
  st.2.2 ||| ((src (st.1 / 8) &&& (255 >>> offset2)) >>> span)

/-- The mathematical value of a span of bits read MSB-first from a byte
sequence: bit q of the stream is bit (7 - q % 8) of byte q / 8. -/
def bits_val (src : Nat → Nat) : Nat → Nat → Nat
  | _, 0 => 0
  | pos, n + 1 =>
    (if (src (pos / 8)).testBit (7 - pos % 8) then 2 ^ n else 0)
      + bits_val src (pos + 1) n

theorem bits_val_zero (src : Nat → Nat) (pos : Nat) : bits_val src pos 0 = 0 := rfl

theorem bits_val_succ (src : Nat → Nat) (pos n : Nat) :
    bits_val src pos (n + 1)
      = (if (src (pos / 8)).testBit (7 - pos % 8) then 2 ^ n else 0)
        + bits_val src (pos + 1) n := rfl

theorem bits_val_lt (src : Nat → Nat) : ∀ n pos, bits_val src pos n < 2 ^ n := by
  intro n
  induction n with
  | zero => intro pos; simp [bits_val]
  | succ m ih =>
    intro pos
    have h := ih (pos + 1)
    rw [bits_val_succ]
    split_ifs <;> · simp [Nat.pow_succ]; omega

theorem shiftRight_255 (k : Nat) (hk : k < 8) : 255 >>> k = 2 ^ (8 - k) - 1 := by
  interval_cases k <;> decide

theorem and_byte_mask (b k : Nat) (hk : k < 8) :
    b &&& (255 >>> k) = b % 2 ^ (8 - k) := by
  rw [shiftRight_255 k hk, and_mask_eq_mod]

/-- Within a single byte, a bit span reads the middle bits of that byte. -/
theorem bits_val_byte (src : Nat → Nat) :
    ∀ (size pos : Nat), pos % 8 + size ≤ 8 →
      bits_val src pos size
        = (src (pos / 8) / 2 ^ (8 - pos % 8 - size)) % 2 ^ size := by
  intro size
  induction size with
  | zero => intro pos _; simp [bits_val, Nat.mod_one]
  | succ n ih =>
    intro pos hb
    have hoff : pos % 8 < 8 := Nat.mod_lt pos (by norm_num)
    have hX : src (pos / 8) / 2 ^ (8 - pos % 8 - (n + 1)) / 2 ^ n % 2
        = if (src (pos / 8)).testBit (7 - pos % 8) then 1 else 0 := by
      have hexp : 8 - pos % 8 - (n + 1) + n = 7 - pos % 8 := by omega
      rw [Nat.div_div_eq_div_mul, ← Nat.pow_add, hexp, Nat.testBit_to_div_mod]
      rcases Nat.mod_two_eq_zero_or_one (src (pos / 8) / 2 ^ (7 - pos % 8)) with h | h <;>
        simp [h]
    have hA : bits_val src (pos + 1) n
        = src (pos / 8) / 2 ^ (8 - pos % 8 - (n + 1)) % 2 ^ n := by
      cases n with
      | zero => simp [bits_val, Nat.mod_one]
      | succ m =>
        have h1 : (pos + 1) % 8 = pos % 8 + 1 := by omega
        have h2 : (pos + 1) / 8 = pos / 8 := by omega
        have hexp2 : 8 - (pos % 8 + 1) - (m + 1) = 8 - pos % 8 - (m + 1 + 1) := by omega
        rw [ih (pos + 1) (by omega), h1, h2, hexp2]
    rw [bits_val_succ, Nat.mod_pow_succ, hX, hA]
    split_ifs <;> ring

/-- Splitting a bit span into a leading and a trailing chunk. -/
theorem bits_val_split (src : Nat → Nat) :
    ∀ (d r pos : Nat),
      bits_val src pos (d + r)
        = bits_val src pos d * 2 ^ r + bits_val src (pos + d) r := by
  intro d
  induction d with
  | zero => intro r pos; simp [bits_val]
  | succ m ih =>
    intro r pos
    have hshape : m + 1 + r = (m + r) + 1 := by omega
    rw [hshape, bits_val_succ, bits_val_succ, ih r (pos + 1)]
    have hpos : pos + 1 + m = pos + (m + 1) := by omega
    rw [hpos]
    split_ifs
    · rw [Nat.pow_add]; ring
    · ring

/-- The final joining step of extract_bits, applied to a loop state. -/
def extract_fin (src : Nat → Nat) (st : Nat × Nat × Nat) : Nat :=
  st.2.2 ||| ((src (st.1 / 8) &&& (255 >>> (st.1 % 8))) >>> (8 - (st.1 % 8 + st.2.1)))

theorem extract_bits_eq_fin (src : Nat → Nat) (pos size : Nat) :
    extract_bits src pos size
      = extract_fin src
          (extract_loop src ((size + pos % 8 - 1) / 8) (pos, size, 0)) := rfl

/-- Invariant of the extraction loop: with the loop count determined by
the remaining bits, an accumulator whose low bits are clear contributes
shifted above the span value, and the remaining iterations plus the
final join produce exactly the value of the bit span. -/
theorem extract_loop_spec (src : Nat → Nat) :
    ∀ (n pos size result : Nat),
      1 ≤ size →
      8 * n + 1 ≤ pos % 8 + size →
      pos % 8 + size ≤ 8 * (n + 1) →
      result % 2 ^ (min size (8 - pos % 8)) = 0 →
      result * 2 ^ (size - min size (8 - pos % 8)) + bits_val src pos size < 2 ^ 64 →
      extract_fin src (extract_loop src n (pos, size, result))
        = result * 2 ^ (size - min size (8 - pos % 8)) + bits_val src pos size := by
  intro n
  induction n with
  | zero =>
    intro pos size result hsz hlo hhi hdiv hbnd
    have hoff : pos % 8 < 8 := Nat.mod_lt pos (by norm_num)
    have hmin : min size (8 - pos % 8) = size := by omega
    rw [hmin] at hdiv ⊢
    simp only [extract_loop, extract_fin]
    rw [and_byte_mask _ _ hoff, Nat.shiftRight_eq_div_pow]
    have hy : src (pos / 8) % 2 ^ (8 - pos % 8) / 2 ^ (8 - (pos % 8 + size))
        = bits_val src pos size := by
      rw [bits_val_byte src size pos (by omega)]
      have hsplitpow : (2 : Nat) ^ (8 - pos % 8)
          = 2 ^ (8 - (pos % 8 + size)) * 2 ^ size := by
        rw [← Nat.pow_add]
        congr 1
        omega
      have h8 : 8 - (pos % 8 + size) = 8 - pos % 8 - size := by omega
      rw [hsplitpow, Nat.mod_mul_right_div_self, ← h8]
    rw [hy]
    have hylt : bits_val src pos size < 2 ^ size := bits_val_lt src size pos
    have hres : result = 2 ^ size * (result / 2 ^ size) := by
      conv_lhs => rw [← Nat.div_add_mod result (2 ^ size)]
      omega
    rw [Nat.sub_self, pow_zero, Nat.mul_one]
    conv_lhs => rw [hres]
    rw [← Nat.mul_add_lt_is_or hylt, ← hres]
  | succ n ih =>
    intro pos size result hsz hlo hhi hdiv hbnd
    have hoff : pos % 8 < 8 := Nat.mod_lt pos (by norm_num)
    have hmin : min size (8 - pos % 8) = 8 - pos % 8 := by omega
    rw [hmin] at hdiv hbnd ⊢
    simp only [extract_loop]
    have hx : src (pos / 8) &&& (255 >>> (pos % 8))
        = src (pos / 8) % 2 ^ (8 - pos % 8) := and_byte_mask _ _ hoff
    have hxlt : src (pos / 8) % 2 ^ (8 - pos % 8) < 2 ^ (8 - pos % 8) :=
      Nat.mod_lt _ (by positivity)
    have hr1 : result ||| (src (pos / 8) &&& (255 >>> (pos % 8)))
        = result + src (pos / 8) % 2 ^ (8 - pos % 8) := by
      rw [hx]
      have hres : result = 2 ^ (8 - pos % 8) * (result / 2 ^ (8 - pos % 8)) := by
        conv_lhs => rw [← Nat.div_add_mod result (2 ^ (8 - pos % 8))]
        omega
      conv_lhs => rw [hres]
      rw [← Nat.mul_add_lt_is_or hxlt, ← hres]
    rw [hr1]
    have hchunk : bits_val src pos (8 - pos % 8)
        = src (pos / 8) % 2 ^ (8 - pos % 8) := by
      rw [bits_val_byte src (8 - pos % 8) pos (by omega)]
      rw [Nat.sub_self, pow_zero, Nat.div_one]
    have hsplit : bits_val src pos size
        = src (pos / 8) % 2 ^ (8 - pos % 8) * 2 ^ (size - (8 - pos % 8))
          + bits_val src (pos + (8 - pos % 8)) (size - (8 - pos % 8)) := by
      have hsz2 : size = (8 - pos % 8) + (size - (8 - pos % 8)) := by omega
      conv_lhs => rw [hsz2]
      rw [bits_val_split, hchunk]
    have hm2le : min (size - (8 - pos % 8)) 8 ≤ size - (8 - pos % 8) :=
      Nat.min_le_left _ _
    have hFval : (result + src (pos / 8) % 2 ^ (8 - pos % 8))
          * 2 ^ (size - (8 - pos % 8))
          + bits_val src (pos + (8 - pos % 8)) (size - (8 - pos % 8))
        = result * 2 ^ (size - (8 - pos % 8)) + bits_val src pos size := by
      rw [hsplit]
      ring
    have hshift_lt : (result + src (pos / 8) % 2 ^ (8 - pos % 8))
          <<< min (size - (8 - pos % 8)) 8 < 2 ^ 64 := by
      rw [Nat.shiftLeft_eq]
      calc (result + src (pos / 8) % 2 ^ (8 - pos % 8))
            * 2 ^ min (size - (8 - pos % 8)) 8
          ≤ (result + src (pos / 8) % 2 ^ (8 - pos % 8))
            * 2 ^ (size - (8 - pos % 8)) := by
            exact Nat.mul_le_mul_left _ (Nat.pow_le_pow_right (by norm_num) hm2le)
        _ ≤ (result + src (pos / 8) % 2 ^ (8 - pos % 8))
            * 2 ^ (size - (8 - pos % 8))
            + bits_val src (pos + (8 - pos % 8)) (size - (8 - pos % 8)) :=
            Nat.le_add_right _ _
        _ = result * 2 ^ (size - (8 - pos % 8)) + bits_val src pos size := hFval
        _ < 2 ^ 64 := hbnd
    have hr2 : ((result + src (pos / 8) % 2 ^ (8 - pos % 8))
          <<< min (size - (8 - pos % 8)) 8) % 2 ^ 64
        = (result + src (pos / 8) % 2 ^ (8 - pos % 8))
          * 2 ^ min (size - (8 - pos % 8)) 8 := by
      rw [Nat.mod_eq_of_lt hshift_lt, Nat.shiftLeft_eq]
    rw [hr2]
    have hpos2mod : (pos + (8 - pos % 8)) % 8 = 0 := by omega
    have hsz2ge : 1 ≤ size - (8 - pos % 8) := by omega
    have hrec := ih (pos + (8 - pos % 8)) (size - (8 - pos % 8))
      ((result + src (pos / 8) % 2 ^ (8 - pos % 8))
        * 2 ^ min (size - (8 - pos % 8)) 8)
      hsz2ge
      (by rw [hpos2mod]; omega)
      (by rw [hpos2mod]; omega)
      (by rw [hpos2mod]
          have : min (size - (8 - pos % 8)) (8 - 0) = min (size - (8 - pos % 8)) 8 := by
            norm_num
          rw [this, Nat.mul_mod_left])
      (by rw [hpos2mod]
          have hmm : min (size - (8 - pos % 8)) (8 - 0) = min (size - (8 - pos % 8)) 8 := by
            norm_num
          rw [hmm]
          have hpow : (2 : Nat) ^ min (size - (8 - pos % 8)) 8
                * 2 ^ (size - (8 - pos % 8) - min (size - (8 - pos % 8)) 8)
              = 2 ^ (size - (8 - pos % 8)) := by
            rw [← Nat.pow_add]
            congr 1
            omega
          calc (result + src (pos / 8) % 2 ^ (8 - pos % 8))
                * 2 ^ min (size - (8 - pos % 8)) 8
                * 2 ^ (size - (8 - pos % 8) - min (size - (8 - pos % 8)) 8)
                + bits_val src (pos + (8 - pos % 8)) (size - (8 - pos % 8))
              = (result + src (pos / 8) % 2 ^ (8 - pos % 8))
                * 2 ^ (size - (8 - pos % 8))
                + bits_val src (pos + (8 - pos % 8)) (size - (8 - pos % 8)) := by
                rw [Nat.mul_assoc, hpow]
            _ = result * 2 ^ (size - (8 - pos % 8)) + bits_val src pos size := hFval
            _ < 2 ^ 64 := hbnd)
    rw [hrec]
    have hmm : min (size - (8 - pos % 8)) (8 - (pos + (8 - pos % 8)) % 8)
        = min (size - (8 - pos % 8)) 8 := by
      rw [hpos2mod]
    rw [hmm]
    have hpow : (2 : Nat) ^ min (size - (8 - pos % 8)) 8
          * 2 ^ (size - (8 - pos % 8) - min (size - (8 - pos % 8)) 8)
        = 2 ^ (size - (8 - pos % 8)) := by
      rw [← Nat.pow_add]
      congr 1
      omega
    rw [Nat.mul_assoc, hpow, hFval]

/-- extract_bits computes the value of the requested bit span, for spans
of one to 64 bits. -/
theorem extract_bits_eq_bits_val (src : Nat → Nat) (pos size : Nat)
    (h1 : 1 ≤ size) (h64 : size ≤ 64) :
    extract_bits src pos size = bits_val src pos size := by
  rw [extract_bits_eq_fin]
  have hoff : pos % 8 < 8 := Nat.mod_lt pos (by norm_num)
  have hbv := bits_val_lt src size pos
  have hpw : (2 : Nat) ^ size ≤ 2 ^ 64 := Nat.pow_le_pow_right (by norm_num) h64
  have h := extract_loop_spec src ((size + pos % 8 - 1) / 8) pos size 0 h1
    (by omega) (by omega) (by simp) (by simpa using lt_of_lt_of_le hbv hpw)
  simpa using h

/-! The write harness of the round-trip claim, built from the words of
the specification: bit position q of the stream (MSB-first, bit 0 the
most significant bit of byte 0) carries bit (w - 1 - (q - p)) of the
value when q lies in the span [p, p+w), and zero elsewhere. -/

/-- Whether stream position q carries a one when v is written MSB-first
at span (p, w). -/
def span_bit (p w v q : Nat) : Bool :=
  decide (p ≤ q) && decide (q < p + w) && v.testBit (w - 1 - (q - p))

/-- The byte with the given MSB-first bits. -/
def byte_of_bits (f : Nat → Bool) : Nat :=
  (if f 0 then 128 else 0) + (if f 1 then 64 else 0) + (if f 2 then 32 else 0) +
  (if f 3 then 16 else 0) + (if f 4 then 8 else 0) + (if f 5 then 4 else 0) +
  (if f 6 then 2 else 0) + (if f 7 then 1 else 0)

/-- The zeroed 64-byte buffer with v written MSB-first at span (p, w),
as a byte sequence. -/
def write_bits (p w v : Nat) : Nat → Nat :=
  fun i => byte_of_bits fun b => span_bit p w v (8 * i + b)

theorem if_pow (b : Bool) (x : Nat) : (if b then x else 0) = b.toNat * x := by
  cases b <;> simp

theorem testBit_chunk (a k : Nat) (c : Bool) (b : Nat) (hb : b < 2 ^ k) :
    ((a * 2 + c.toNat) * 2 ^ k + b).testBit k = c := by
  rw [Nat.testBit_to_div_mod]
  have hd : ((a * 2 + c.toNat) * 2 ^ k + b) / 2 ^ k = a * 2 + c.toNat := by
    rw [Nat.add_comm, Nat.add_mul_div_right _ _ (Nat.pos_pow_of_pos k (by norm_num)),
      Nat.div_eq_of_lt hb, Nat.zero_add]
  rw [hd]
  cases c
  · simp
  · simp
    omega

theorem testBit_byte_of_bits (f : Nat → Bool) (j : Nat) (hj : j < 8) :
    (byte_of_bits f).testBit (7 - j) = f j := by
  have e0 := Bool.toNat_le (f 0)
  have e1 := Bool.toNat_le (f 1)
  have e2 := Bool.toNat_le (f 2)
  have e3 := Bool.toNat_le (f 3)
  have e4 := Bool.toNat_le (f 4)
  have e5 := Bool.toNat_le (f 5)
  have e6 := Bool.toNat_le (f 6)
  have e7 := Bool.toNat_le (f 7)
  interval_cases j
  · have hdec : byte_of_bits f
        = (0 * 2 + (f 0).toNat) * 2 ^ 7
          + ((f 1).toNat * 64 + (f 2).toNat * 32 + (f 3).toNat * 16 + (f 4).toNat * 8
             + (f 5).toNat * 4 + (f 6).toNat * 2 + (f 7).toNat * 1) := by
      simp only [byte_of_bits, if_pow]
      ring
    rw [show 7 - 0 = 7 from rfl, hdec]
    exact testBit_chunk _ 7 _ _ (by norm_num; omega)
  · have hdec : byte_of_bits f
        = ((f 0).toNat * 2 + (f 1).toNat) * 2 ^ 6
          + ((f 2).toNat * 32 + (f 3).toNat * 16 + (f 4).toNat * 8
             + (f 5).toNat * 4 + (f 6).toNat * 2 + (f 7).toNat * 1) := by
      simp only [byte_of_bits, if_pow]
      ring
    rw [show 7 - 1 = 6 from rfl, hdec]
    exact testBit_chunk _ 6 _ _ (by norm_num; omega)
  · have hdec : byte_of_bits f
        = (((f 0).toNat * 2 + (f 1).toNat) * 2 + (f 2).toNat) * 2 ^ 5
          + ((f 3).toNat * 16 + (f 4).toNat * 8
             + (f 5).toNat * 4 + (f 6).toNat * 2 + (f 7).toNat * 1) := by
      simp only [byte_of_bits, if_pow]
      ring
    rw [show 7 - 2 = 5 from rfl, hdec]
    exact testBit_chunk _ 5 _ _ (by norm_num; omega)
  · have hdec : byte_of_bits f
        = ((((f 0).toNat * 2 + (f 1).toNat) * 2 + (f 2).toNat) * 2 + (f 3).toNat) * 2 ^ 4
          + ((f 4).toNat * 8 + (f 5).toNat * 4 + (f 6).toNat * 2 + (f 7).toNat * 1) := by
      simp only [byte_of_bits, if_pow]
      ring
    rw [show 7 - 3 = 4 from rfl, hdec]
    exact testBit_chunk _ 4 _ _ (by norm_num; omega)
  · have hdec : byte_of_bits f
        = (((((f 0).toNat * 2 + (f 1).toNat) * 2 + (f 2).toNat) * 2 + (f 3).toNat) * 2
            + (f 4).toNat) * 2 ^ 3
          + ((f 5).toNat * 4 + (f 6).toNat * 2 + (f 7).toNat * 1) := by
      simp only [byte_of_bits, if_pow]
      ring
    rw [show 7 - 4 = 3 from rfl, hdec]
    exact testBit_chunk _ 3 _ _ (by norm_num; omega)
  · have hdec : byte_of_bits f
        = ((((((f 0).toNat * 2 + (f 1).toNat) * 2 + (f 2).toNat) * 2 + (f 3).toNat) * 2
            + (f 4).toNat) * 2 + (f 5).toNat) * 2 ^ 2
          + ((f 6).toNat * 2 + (f 7).toNat * 1) := by
      simp only [byte_of_bits, if_pow]
      ring
    rw [show 7 - 5 = 2 from rfl, hdec]
    exact testBit_chunk _ 2 _ _ (by norm_num; omega)
  · have hdec : byte_of_bits f
        = (((((((f 0).toNat * 2 + (f 1).toNat) * 2 + (f 2).toNat) * 2 + (f 3).toNat) * 2
            + (f 4).toNat) * 2 + (f 5).toNat) * 2 + (f 6).toNat) * 2 ^ 1
          + (f 7).toNat * 1 := by
      simp only [byte_of_bits, if_pow]
      ring
    rw [show 7 - 6 = 1 from rfl, hdec]
    exact testBit_chunk _ 1 _ _ (by norm_num; omega)
  · have hdec : byte_of_bits f
        = ((((((((f 0).toNat * 2 + (f 1).toNat) * 2 + (f 2).toNat) * 2 + (f 3).toNat) * 2
            + (f 4).toNat) * 2 + (f 5).toNat) * 2 + (f 6).toNat) * 2 + (f 7).toNat) * 2 ^ 0
          + 0 := by
      simp only [byte_of_bits, if_pow]
      ring
    rw [show 7 - 7 = 0 from rfl, hdec]
    exact testBit_chunk _ 0 _ _ (by norm_num)

theorem write_bits_testBit (p w v q : Nat) (h1 : p ≤ q) (h2 : q < p + w) :
    (write_bits p w v (q / 8)).testBit (7 - q % 8) = v.testBit (w - 1 - (q - p)) := by
  have hq : q % 8 < 8 := Nat.mod_lt q (by norm_num)
  unfold write_bits
  rw [testBit_byte_of_bits _ (q % 8) hq]
  unfold span_bit
  have hqq : 8 * (q / 8) + q % 8 = q := by omega
  rw [hqq]
  simp [h1, h2]

theorem bits_val_write (p w v : Nat) :
    ∀ k, k ≤ w → bits_val (write_bits p w v) (p + (w - k)) k = v % 2 ^ k := by
  intro k
  induction k with
  | zero => intro _; simp [bits_val, Nat.mod_one]
  | succ m ih =>
    intro hk
    rw [bits_val_succ]
    have hpos : p + (w - (m + 1)) + 1 = p + (w - m) := by omega
    rw [hpos, ih (by omega)]
    have hbit := write_bits_testBit p w v (p + (w - (m + 1))) (by omega) (by omega)
    have hidx : w - 1 - (p + (w - (m + 1)) - p) = m := by omega
    rw [hidx] at hbit
    rw [hbit, Nat.mod_pow_succ, Nat.testBit_to_div_mod]
    rcases Nat.mod_two_eq_zero_or_one (v / 2 ^ m) with h | h
    · simp [h]
    · simp [h]
      omega

/-- Claim C7: for every bit position p and width w with 1 ≤ w ≤ 64 and
p + w ≤ 512, writing the masked value v AND (1 shl w) - 1 MSB-first at
(p, w) into a zeroed 64-byte buffer and extracting the same span with
extract_bits returns the masked value. -/
theorem C7_bit_roundtrip (p w v : Nat) (h1 : 1 ≤ w) (h2 : w ≤ 64)
    (_h3 : p + w ≤ 512) :
    extract_bits (write_bits p w (v &&& ((1 <<< w) - 1))) p w
      = v &&& ((1 <<< w) - 1) := by
  have hmask : v &&& ((1 <<< w) - 1) = v % 2 ^ w := by
    rw [Nat.shiftLeft_eq, Nat.one_mul, and_mask_eq_mod]
  rw [extract_bits_eq_bits_val _ _ _ h1 h2]
  have hval := bits_val_write p w (v &&& ((1 <<< w) - 1)) w le_rfl
  simp only [Nat.sub_self, Nat.add_zero] at hval
  rw [hval, hmask]
  exact Nat.mod_mod_of_dvd v dvd_rfl

/-- Witness for C7 at p = 26, w = 2, v = 5 (span value 1). -/
theorem C7_bit_roundtrip_witness :
    (1 : Nat) ≤ 2 ∧ (2 : Nat) ≤ 64 ∧ (26 : Nat) + 2 ≤ 512 ∧
    extract_bits (write_bits 26 2 (5 &&& ((1 <<< 2) - 1))) 26 2
      = 5 &&& ((1 <<< 2) - 1) :=
  ⟨by decide, by decide, by decide, C7_bit_roundtrip 26 2 5 (by decide) (by decide)
    (by decide)⟩

/-! ## Claim C10: the bit-frame parser never clears its error buffer
(message-parser.h) -/

/-- State of a message parser: its own error handler (capacity two in
the source) and the settings it operates on. -/
structure msg_state where
  err_handler : error_handler
  settings : List lsetting

/-- The message pointer is modelled as an optional byte sequence (none
embeds a null data pointer). -/
def validate_config_message (msg_data : Option (Nat → Nat)) (msg_size : Nat)
    (h : error_handler) : error_handler :=
  let h1 := if msg_data.isNone then h.add_error (code_mk 1 6 0) else h
  if msg_size < 64 then h1.add_error (code_mk 1 7 (msg_size : Int)) else h1

/-- The eight little-endian bytes stored by setting::set_value for an
extracted uint_fast64_t value. -/
def le8 (x : Nat) : List Nat :=
  [x % 256, x / 256 % 256, x / 256 ^ 2 % 256, x / 256 ^ 3 % 256,
   x / 256 ^ 4 % 256, x / 256 ^ 5 % 256, x / 256 ^ 6 % 256, x / 256 ^ 7 % 256]

/-- The per-setting effect of a successful message parse: a bit-mapped
setting receives the little-endian bytes of its extracted span, the
rest stay untouched. -/
def parse_setting_value (msg_data : Option (Nat → Nat)) (s : lsetting) : lsetting :=
  if s.bits_size ≠ 0 then
    { s with
        value := le8 (extract_bits (msg_data.getD fun _ => 0) s.bits_pos s.bits_size) }
  else s

/-- Embedding of message_parser::parse_config_impl: run the pointer and
size checks, return untouched settings whenever the handler holds any
error, else fill the buffer of every bit-mapped setting from the
extracted bits. -/
def parse_config (st : msg_state) (msg_data : Option (Nat → Nat))
    (msg_size : Nat) : msg_state :=
  let h := validate_config_message msg_data msg_size st.err_handler
  if h.contains_errors then { st with err_handler := h }
  else
    { err_handler := h
      settings := st.settings.map (parse_setting_value msg_data) }

/-- Embedding of message_parser::clear_parsing_errors. -/
def clear_parsing_errors (st : msg_state) : msg_state :=
  { st with err_handler := st.err_handler.clear_errors }

theorem add_error_extends (h : error_handler) (c : Nat) :
    ∃ t, (h.add_error c).error_list = h.error_list ++ t := by
  unfold error_handler.add_error
  split_ifs with hf
  · exact ⟨[], by simp [error_handler.error_list]⟩
  · by_cases hlen : h.top < h.slots.length
    · refine ⟨[c], ?_⟩
      simp only [error_handler.error_list]
      exact take_succ_set _ _ _ hlen
    · refine ⟨[], ?_⟩
      simp only [error_handler.error_list, List.append_nil]
      rw [List.set_eq_of_length_le (by omega), List.take_of_length_le (by omega),
        List.take_of_length_le (by omega)]

theorem add_error_top_le (h : error_handler) (c : Nat) :
    h.top ≤ (h.add_error c).top := by
  unfold error_handler.add_error
  split_ifs <;> simp

theorem validate_message_extends (msg_data : Option (Nat → Nat)) (msg_size : Nat)
    (h : error_handler) :
    ∃ t, (validate_config_message msg_data msg_size h).error_list
      = h.error_list ++ t := by
  unfold validate_config_message
  split_ifs with h1 h2 h2
  · obtain ⟨t1, ht1⟩ := add_error_extends h (code_mk 1 6 0)
    obtain ⟨t2, ht2⟩ := add_error_extends (h.add_error (code_mk 1 6 0))
      (code_mk 1 7 (msg_size : Int))
    exact ⟨t1 ++ t2, by rw [ht2, ht1, List.append_assoc]⟩
  · exact add_error_extends h (code_mk 1 6 0)
  · exact add_error_extends h (code_mk 1 7 (msg_size : Int))
  · exact ⟨[], by simp⟩

theorem validate_message_top_le (msg_data : Option (Nat → Nat)) (msg_size : Nat)
    (h : error_handler) :
    h.top ≤ (validate_config_message msg_data msg_size h).top := by
  unfold validate_config_message
  split_ifs with h1 h2 h2
  · exact le_trans (add_error_top_le h _) (add_error_top_le _ _)
  · exact add_error_top_le h _
  · exact add_error_top_le h _
  · exact le_rfl

/-- Claim C10: parse_config only ever appends to its error buffer; when
the buffer holds any error after the pointer and size checks, including
errors left over from an earlier call, the settings are returned
untouched; only clear_parsing_errors empties the buffer, and with an
empty buffer, a non-null pointer and a sufficient size, extraction
fills every bit-mapped setting buffer. -/
theorem C10_parse_preserves_errors (st : msg_state)
    (msg_data : Option (Nat → Nat)) (msg_size : Nat) :
    (∃ t, (parse_config st msg_data msg_size).err_handler.error_list
        = st.err_handler.error_list ++ t) ∧
    (st.err_handler.contains_errors = true →
      (parse_config st msg_data msg_size).err_handler.contains_errors = true ∧
      (parse_config st msg_data msg_size).settings = st.settings) ∧
    ((validate_config_message msg_data msg_size st.err_handler).contains_errors
        = true →
      (parse_config st msg_data msg_size).settings = st.settings) ∧
    ((clear_parsing_errors st).err_handler.error_list = [] ∧
     (clear_parsing_errors st).err_handler.contains_errors = false) ∧
    (st.err_handler.contains_errors = false → msg_data ≠ none → 64 ≤ msg_size →
      (parse_config st msg_data msg_size).settings
        = st.settings.map (parse_setting_value msg_data)) := by
  refine ⟨?_, ?_, ?_, ?_, ?_⟩
  · obtain ⟨t, ht⟩ := validate_message_extends msg_data msg_size st.err_handler
    refine ⟨t, ?_⟩
    unfold parse_config
    by_cases hc : (validate_config_message msg_data msg_size
        st.err_handler).contains_errors = true
    · rw [if_pos hc]
      exact ht
    · rw [if_neg (by simp [hc])]
      exact ht
  · intro hctn
    have htop := validate_message_top_le msg_data msg_size st.err_handler
    have hc : (validate_config_message msg_data msg_size st.err_handler).contains_errors
        = true := by
      simp only [error_handler.contains_errors] at hctn ⊢
      simp only [decide_eq_true_eq] at hctn ⊢
      omega
    unfold parse_config
    rw [if_pos hc]
    exact ⟨hc, rfl⟩
  · intro hc
    unfold parse_config
    rw [if_pos hc]
  · constructor
    · simp [clear_parsing_errors, error_handler.clear_errors, error_handler.error_list]
    · simp [clear_parsing_errors, error_handler.clear_errors, error_handler.contains_errors]
  · intro hempty hptr hsize
    have hval : validate_config_message msg_data msg_size st.err_handler
        = st.err_handler := by
      unfold validate_config_message
      have hnone : msg_data.isNone = false := by
        cases msg_data
        · exact absurd rfl hptr
        · rfl
      have hs : ¬(msg_size < 64) := by omega
      simp [hnone, hs]
    unfold parse_config
    rw [hval, if_neg (by simp [hempty])]

/-- A concrete message-parser state used to witness C10: a fresh
capacity-two handler and a single setting mapped to bit span (24, 2). -/
def c10_state : msg_state :=
  { err_handler := error_handler.mk_fresh 2
    settings := [{ null_setting with bits_pos := 24, bits_size := 2 }] }

/-- Witness for C10: a null-pointer parse on a fresh parser records errors
and leaves the setting untouched, and a valid 64-byte message on a fresh
parser fills the buffer. -/
theorem C10_parse_preserves_errors_witness :
    ((validate_config_message none 0 c10_state.err_handler).contains_errors = true →
      (parse_config c10_state none 0).settings = c10_state.settings) ∧
    (parse_config c10_state none 0).settings = c10_state.settings ∧
    (c10_state.err_handler.contains_errors = false →
        (some fun _ : Nat => (255 : Nat)) ≠ none → 64 ≤ 64 →
      (parse_config c10_state (some fun _ => 255) 64).settings
        = c10_state.settings.map
            (parse_setting_value (some fun _ => 255))) :=
  ⟨(C10_parse_preserves_errors c10_state none 0).2.2.1,
   (C10_parse_preserves_errors c10_state none 0).2.2.1 (by decide),
   (C10_parse_preserves_errors c10_state (some fun _ => 255) 64).2.2.2.2⟩

/-! ## Claim C4: the tag-tree parser (xml-parser.h)

The SAX tokenizer is an external library; a document is modelled as the
interleaved stream it produces — the characters fed in (which advance
the file position) and the open, close and content events raised while
they are handled.  The same text with a freshly initialised tokenizer
always yields the same stream, so parsing a document twice means running
the same stream twice.  The tag-level counters are int8_t and the tag
depth int_least8_t in the source; both are modelled as unbounded
integers (depth overflow past 127 nesting levels is out of scope). -/

/-- The tag paths of the schema as seen by the parser: one path per
setting, padded with empty names up to the shared maximum depth. -/
structure xml_schema where
  tags : List (List String)
  max_tag_depth : Int

/-- The tag name of setting i at a given depth (empty outside the
table), as read by setting::tag. -/
def tag_at (sc : xml_schema) (i : Nat) (d : Int) : String :=
  (sc.tags.getD i []).getD d.toNat ""

/-- Mutable state of the tag-tree parser, value buffers of the settings
included. -/
structure xml_state where
  buffers : List String
  tag_levels : List Int
  target_setting : Nat
  tag_depth : Int
  handle_tag_called : Bool
  err_handler : error_handler
  line : Nat
  col : Nat

/-- One iteration of the matching loop of handle_tag: a setting whose
tracked level equals the current depth and whose tag name at that depth
matches is bumped and selected. -/
def scf (sc : xml_schema) (d : Int) (name : String) :
    List Int × Nat → Nat → List Int × Nat := fun acc i =>
  if acc.1.getD i 0 = d ∧ tag_at sc i d = name then (acc.1.set i (d + 1), i)
  else acc

/-- The matching loop of handle_tag, in schema order: the last match
wins the selection. -/
def scan_settings (sc : xml_schema) (levels : List Int) (target : Nat)
    (depth : Int) (name : String) : List Int × Nat :=
  (List.range sc.tags.length).foldl (scf sc depth name) (levels, target)

/-- Embedding of handle_tag. -/
def open_step (sc : xml_schema) (st : xml_state) (name : String) : xml_state :=
  let scanned :=
    if st.tag_depth < sc.max_tag_depth then
      scan_settings sc st.tag_levels st.target_setting st.tag_depth name
    else (st.tag_levels, st.target_setting)
  { st with tag_levels := scanned.1, target_setting := scanned.2,
            tag_depth := st.tag_depth + 1, handle_tag_called := true }

/-- Embedding of is_final_tag_reached. -/
def is_final_tag (sc : xml_schema) (st : xml_state) : Prop :=
  st.tag_depth = sc.max_tag_depth ∨
    (st.tag_depth < sc.max_tag_depth ∧ tag_at sc st.target_setting st.tag_depth = "")

instance (sc : xml_schema) (st : xml_state) : Decidable (is_final_tag sc st) := by
  unfold is_final_tag
  infer_instance

/-- Embedding of handle_content: when the targeted setting matched down
to the current depth and the depth reaches its final tag, over-long
content raises an error at the current position, the value buffer
receives the first 32 characters, and the tracked level restarts. -/
def content_step (sc : xml_schema) (st : xml_state) (content : String) : xml_state :=
  if st.tag_levels.getD st.target_setting 0 = st.tag_depth ∧ is_final_tag sc st then
    let h1 :=
      if content.length > 32 then
        st.err_handler.add_error (code_pos 3 (st.col : Int) (st.line : Int))
      else st.err_handler
    { st with err_handler := h1,
              buffers := st.buffers.set st.target_setting (content.take 32),
              tag_levels := st.tag_levels.set st.target_setting 0 }
  else st

/-- Embedding of update_position. -/
def chr_step (st : xml_state) (c : Char) : xml_state :=
  if c = Char.ofNat 10 then { st with line := st.line + 1, col := 1 }
  else if c = Char.ofNat 13 then st
  else { st with col := st.col + 1 }

/-- One element of the tokenizer stream: a character being consumed, or
an event raised while it is handled. -/
inductive doc_item where
  | chr (c : Char)
  | open_tag (name : String)
  | close_tag
  | text (content : String)

/-- Dispatch of one stream element. -/
def doc_step (sc : xml_schema) (st : xml_state) : doc_item → xml_state
  | .chr c => chr_step st c
  | .open_tag name => open_step sc st name
  | .close_tag => { st with tag_depth := st.tag_depth - 1 }
  | .text content => content_step sc st content

/-- Embedding of execute_parsing over a stream. -/
def run_items (sc : xml_schema) (st : xml_state) (doc : List doc_item) : xml_state :=
  doc.foldl (doc_step sc) st

/-- Embedding of reset_parsing: position, errors, tag levels and the
tag-seen flag restart; the tag depth and the selected target do not. -/
def reset_parsing (sc : xml_schema) (st : xml_state) : xml_state :=
  { st with line := 1, col := 1,
            err_handler := st.err_handler.clear_errors,
            tag_levels := List.replicate sc.tags.length 0,
            handle_tag_called := false }

/-- Embedding of verify_parsing: an unbalanced depth reports a missing
closing or opening tag, and a parse that saw no tag reports
no_tags_found at the current position. -/
def verify_parsing (st : xml_state) : xml_state :=
  let st1 :=
    if st.tag_depth > 0 then
      { st with err_handler := st.err_handler.add_error (code_mk 1 2 st.tag_depth) }
    else if st.tag_depth < 0 then
      { st with err_handler := st.err_handler.add_error (code_mk 1 1 (-st.tag_depth)) }
    else st
  if ¬ st1.handle_tag_called then
    { st1 with err_handler :=
        st1.err_handler.add_error (code_pos 5 (st1.col : Int) (st1.line : Int)) }
  else st1

/-- Embedding of parse_config_impl: an empty document only records
empty_config at the current position; otherwise the changing state is
reset, the stream is run and the outcome verified. -/
def parse_document (sc : xml_schema) (st : xml_state) (doc : List doc_item) :
    xml_state :=
  if doc.isEmpty then
    { st with err_handler :=
        st.err_handler.add_error (code_pos 4 (st.col : Int) (st.line : Int)) }
  else verify_parsing (run_items sc (reset_parsing sc st) doc)

/-- A freshly constructed parser over a schema. -/
def fresh_xml_state (sc : xml_schema) : xml_state :=
  { buffers := List.replicate sc.tags.length ""
    tag_levels := List.replicate sc.tags.length 0
    target_setting := 0
    tag_depth := 0
    handle_tag_called := false
    err_handler := error_handler.mk_fresh sc.tags.length
    line := 1
    col := 1 }

/-- A minimal two-setting schema for the counterexample. -/
def sc0 : xml_schema := { tags := [["a"], ["b"]], max_tag_depth := 1 }

/-- Counterexample to claim C4 as stated: parsing the empty document
twice with the same parser over a fresh schema does not reproduce the
error buffer of the first parse — the empty-document branch never
resets the parser, so a second empty_config code is appended. -/
theorem C4_empty_document_not_idempotent :
    error_handler.error_list
        (xml_state.err_handler
          (parse_document sc0 (parse_document sc0 (fresh_xml_state sc0) []) []))
      ≠ error_handler.error_list
          (xml_state.err_handler (parse_document sc0 (fresh_xml_state sc0) [])) := by
  decide

/-! ### Write logs over the setting value buffers

The event handlers never read a value buffer; every buffer change is a
plain overwrite at one setting index.  A run is therefore described by
the sequence of (index, value) writes it performs, and replaying the
same write sequence twice is the same as replaying it once. -/

/-- Replaying a write log over a buffer list. -/
def apply_writes (W : List (Nat × String)) (B : List String) : List String :=
  W.foldl (fun b w => b.set w.1 w.2) B

theorem apply_writes_cons (w : Nat × String) (W : List (Nat × String))
    (B : List String) : apply_writes (w :: W) B = apply_writes W (B.set w.1 w.2) := rfl

theorem apply_writes_snoc (W : List (Nat × String)) (w : Nat × String)
    (B : List String) : apply_writes (W ++ [w]) B = (apply_writes W B).set w.1 w.2 := by
  simp [apply_writes, List.foldl_append]

theorem apply_writes_length (W : List (Nat × String)) :
    ∀ B : List String, (apply_writes W B).length = B.length := by
  induction W with
  | nil => intro B; rfl
  | cons w rest ih =>
    intro B
    rw [apply_writes_cons, ih]
    simp

theorem getD_set_ne (l : List String) (n m : Nat) (a : String) (h : n ≠ m) :
    (l.set n a).getD m "" = l.getD m "" := by
  induction l generalizing n m with
  | nil => simp
  | cons x xs ih =>
    cases n with
    | zero =>
      cases m with
      | zero => exact absurd rfl h
      | succ m => simp
    | succ n =>
      cases m with
      | zero => simp
      | succ m =>
        simp only [List.set_cons_succ, List.getD_cons_succ]
        exact ih n m (fun he => h (by rw [he]))

theorem getD_set_self (l : List String) (n : Nat) (a : String) :
    (l.set n a).getD n "" = if n < l.length then a else "" := by
  induction l generalizing n with
  | nil => simp
  | cons x xs ih =>
    cases n with
    | zero => simp
    | succ n =>
      simp only [List.set_cons_succ, List.getD_cons_succ, List.length_cons]
      rw [ih]
      by_cases h : n < xs.length
      · rw [if_pos h, if_pos (by omega)]
      · rw [if_neg h, if_neg (by omega)]

theorem list_eq_of_getD (B : List String) :
    ∀ C : List String, B.length = C.length →
      (∀ i, B.getD i "" = C.getD i "") → B = C := by
  induction B with
  | nil =>
    intro C hlen _
    cases C with
    | nil => rfl
    | cons c cs => simp at hlen
  | cons b bs ih =>
    intro C hlen h
    cases C with
    | nil => simp at hlen
    | cons c cs =>
      have h0 : b = c := by have := h 0; simpa using this
      have ht : bs = cs :=
        ih cs (by simpa using hlen) (fun i => by have := h (i + 1); simpa using this)
      rw [h0, ht]

theorem apply_writes_congr (W : List (Nat × String)) :
    ∀ B C : List String, B.length = C.length →
      (∀ i, (∀ w ∈ W, w.1 ≠ i) → B.getD i "" = C.getD i "") →
      apply_writes W B = apply_writes W C := by
  induction W with
  | nil =>
    intro B C hlen h
    exact list_eq_of_getD B C hlen (fun i => h i (fun w hw => absurd hw (List.not_mem_nil w)))
  | cons w rest ih =>
    intro B C hlen h
    rw [apply_writes_cons, apply_writes_cons]
    apply ih (B.set w.1 w.2) (C.set w.1 w.2) (by simp [hlen])
    intro i hrest
    by_cases he : w.1 = i
    · subst he
      rw [getD_set_self, getD_set_self, hlen]
    · rw [getD_set_ne _ _ _ _ he, getD_set_ne _ _ _ _ he]
      refine h i (fun w2 hw2 => ?_)
      rcases List.mem_cons.mp hw2 with h1 | h1
      · rw [h1]; exact he
      · exact hrest w2 h1

theorem apply_writes_getD_unwritten (W : List (Nat × String)) :
    ∀ (B : List String) (i : Nat), (∀ w ∈ W, w.1 ≠ i) →
      (apply_writes W B).getD i "" = B.getD i "" := by
  induction W with
  | nil => intro B i _; rfl
  | cons w rest ih =>
    intro B i h
    rw [apply_writes_cons,
        ih (B.set w.1 w.2) i (fun w2 hw2 => h w2 (List.mem_cons_of_mem w hw2)),
        getD_set_ne _ _ _ _ (h w (List.mem_cons_self w rest))]

theorem apply_writes_idem (W : List (Nat × String)) (B : List String) :
    apply_writes W (apply_writes W B) = apply_writes W B := by
  apply apply_writes_congr W _ _ (apply_writes_length W B)
  intro i h
  exact apply_writes_getD_unwritten W B i h

theorem getD_replicate_zero (n : Nat) : ∀ i : Nat, (List.replicate n (0 : Int)).getD i 0 = 0 := by
  induction n with
  | zero => intro i; simp
  | succ n ih =>
    intro i
    cases i with
    | zero => simp
    | succ i =>
      simp only [List.replicate, List.getD_cons_succ]
      exact ih i

/-! ### Relating two error handlers that receive the same codes -/

/-- Two handlers with the same capacity, fill level, storage size and
visible error list; add_error keeps them in lock step. -/
def rel_err (h1 h2 : error_handler) : Prop :=
  h1.cap = h2.cap ∧ h1.top = h2.top ∧ h1.slots.length = h2.slots.length ∧
    h1.error_list = h2.error_list

theorem rel_err_add (h1 h2 : error_handler) (c : Nat) (h : rel_err h1 h2) :
    rel_err (h1.add_error c) (h2.add_error c) := by
  obtain ⟨hcap, htop, hlen, hlist⟩ := h
  unfold error_handler.add_error
  by_cases hfull : h1.top = h1.cap
  · rw [if_pos hfull, if_pos (by rw [← htop, ← hcap]; exact hfull)]
    exact ⟨hcap, htop, hlen, hlist⟩
  · rw [if_neg hfull, if_neg (by rw [← htop, ← hcap]; exact hfull)]
    refine ⟨hcap, by rw [htop], by simp [hlen], ?_⟩
    show (h1.slots.set h1.top c).take (h1.top + 1) = (h2.slots.set h2.top c).take (h2.top + 1)
    unfold error_handler.error_list at hlist
    by_cases hlt : h1.top < h1.slots.length
    · rw [take_succ_set _ _ _ hlt, take_succ_set _ _ _ (by rw [← htop, ← hlen]; exact hlt),
          hlist]
    · have hge : h1.slots.length ≤ h1.top := Nat.le_of_not_lt hlt
      rw [List.take_of_length_le hge, List.take_of_length_le (by rw [← htop, ← hlen]; exact hge)]
        at hlist
      rw [List.set_eq_of_length_le hge,
          List.set_eq_of_length_le (by rw [← htop, ← hlen]; exact hge),
          List.take_of_length_le (by omega),
          List.take_of_length_le (by rw [← htop, ← hlen]; omega), hlist]

theorem rel_err_add_all (cs : List Nat) : ∀ h1 h2 : error_handler, rel_err h1 h2 →
    rel_err (h1.add_all cs) (h2.add_all cs) := by
  induction cs with
  | nil => intro h1 h2 h; exact h
  | cons c rest ih =>
    intro h1 h2 h
    show rel_err ((h1.add_error c).add_all rest) ((h2.add_error c).add_all rest)
    exact ih _ _ (rel_err_add h1 h2 c h)

theorem add_error_shape (h : error_handler) (c : Nat) :
    (h.add_error c).cap = h.cap ∧ (h.add_error c).slots.length = h.slots.length := by
  unfold error_handler.add_error
  by_cases hf : h.top = h.cap
  · rw [if_pos hf]; exact ⟨rfl, rfl⟩
  · rw [if_neg hf]; exact ⟨rfl, by simp⟩

theorem add_all_cap (cs : List Nat) : ∀ h : error_handler, (h.add_all cs).cap = h.cap := by
  induction cs with
  | nil => intro h; rfl
  | cons c rest ih =>
    intro h
    show ((h.add_error c).add_all rest).cap = h.cap
    rw [ih]
    exact (add_error_shape h c).1

theorem add_all_len (cs : List Nat) :
    ∀ h : error_handler, (h.add_all cs).slots.length = h.slots.length := by
  induction cs with
  | nil => intro h; rfl
  | cons c rest ih =>
    intro h
    show ((h.add_error c).add_all rest).slots.length = h.slots.length
    rw [ih]
    exact (add_error_shape h c).2

/-! ### The matching loop seen from two runs with different selections -/

theorem scf_fold_levels_target (sc : xml_schema) (d : Int) (name : String) :
    ∀ (idxs : List Nat) (L : List Int) (t1 t2 : Nat),
      (idxs.foldl (scf sc d name) (L, t1)).1 = (idxs.foldl (scf sc d name) (L, t2)).1 ∧
        ((idxs.foldl (scf sc d name) (L, t1)).2 = (idxs.foldl (scf sc d name) (L, t2)).2 ∨
          (idxs.foldl (scf sc d name) (L, t1) = (L, t1) ∧
            idxs.foldl (scf sc d name) (L, t2) = (L, t2))) := by
  intro idxs
  induction idxs with
  | nil => intro L t1 t2; exact ⟨rfl, Or.inr ⟨rfl, rfl⟩⟩
  | cons i rest ih =>
    intro L t1 t2
    simp only [List.foldl_cons]
    by_cases hc : L.getD i 0 = d ∧ tag_at sc i d = name
    · rw [show scf sc d name (L, t1) i = (L.set i (d + 1), i) from by
            unfold scf; rw [if_pos hc],
          show scf sc d name (L, t2) i = (L.set i (d + 1), i) from by
            unfold scf; rw [if_pos hc]]
      exact ⟨rfl, Or.inl rfl⟩
    · rw [show scf sc d name (L, t1) i = (L, t1) from by unfold scf; rw [if_neg hc],
          show scf sc d name (L, t2) i = (L, t2) from by unfold scf; rw [if_neg hc]]
      exact ih L t1 t2

theorem scan_settings_rel (sc : xml_schema) (L : List Int) (d : Int) (name : String)
    (t1 t2 : Nat) :
    (scan_settings sc L t1 d name).1 = (scan_settings sc L t2 d name).1 ∧
      ((scan_settings sc L t1 d name).2 = (scan_settings sc L t2 d name).2 ∨
        (scan_settings sc L t1 d name = (L, t1) ∧
          scan_settings sc L t2 d name = (L, t2))) := by
  unfold scan_settings
  exact scf_fold_levels_target sc d name (List.range sc.tags.length) L t1 t2

theorem scf_fold_target_mem (sc : xml_schema) (d : Int) (name : String) :
    ∀ (idxs : List Nat) (L : List Int) (t : Nat),
      (idxs.foldl (scf sc d name) (L, t)).2 = t ∨
        (idxs.foldl (scf sc d name) (L, t)).2 ∈ idxs := by
  intro idxs
  induction idxs with
  | nil => intro L t; exact Or.inl rfl
  | cons i rest ih =>
    intro L t
    simp only [List.foldl_cons]
    by_cases hc : L.getD i 0 = d ∧ tag_at sc i d = name
    · rw [show scf sc d name (L, t) i = (L.set i (d + 1), i) from by
            unfold scf; rw [if_pos hc]]
      rcases ih (L.set i (d + 1)) i with h | h
      · exact Or.inr (by rw [h]; exact List.mem_cons_self i rest)
      · exact Or.inr (List.mem_cons_of_mem i h)
    · rw [show scf sc d name (L, t) i = (L, t) from by unfold scf; rw [if_neg hc]]
      rcases ih L t with h | h
      · exact Or.inl h
      · exact Or.inr (List.mem_cons_of_mem i h)

theorem scan_settings_target_lt (sc : xml_schema) (L : List Int) (t : Nat) (d : Int)
    (name : String) (ht : t < sc.tags.length) :
    (scan_settings sc L t d name).2 < sc.tags.length := by
  unfold scan_settings
  rcases scf_fold_target_mem sc d name (List.range sc.tags.length) L t with h | h
  · rw [h]; exact ht
  · exact List.mem_range.mp h

/-! ### Shapes of the individual event handlers -/

theorem chr_step_fields (st : xml_state) (c : Char) :
    (chr_step st c).buffers = st.buffers ∧ (chr_step st c).tag_levels = st.tag_levels ∧
      (chr_step st c).target_setting = st.target_setting ∧
      (chr_step st c).tag_depth = st.tag_depth ∧
      (chr_step st c).handle_tag_called = st.handle_tag_called ∧
      (chr_step st c).err_handler = st.err_handler := by
  unfold chr_step
  by_cases h10 : c = Char.ofNat 10
  · rw [if_pos h10]; exact ⟨rfl, rfl, rfl, rfl, rfl, rfl⟩
  · rw [if_neg h10]
    by_cases h13 : c = Char.ofNat 13
    · rw [if_pos h13]; exact ⟨rfl, rfl, rfl, rfl, rfl, rfl⟩
    · rw [if_neg h13]; exact ⟨rfl, rfl, rfl, rfl, rfl, rfl⟩

theorem chr_step_pos (s t : xml_state) (c : Char) (hln : s.line = t.line)
    (hcol : s.col = t.col) :
    (chr_step s c).line = (chr_step t c).line ∧ (chr_step s c).col = (chr_step t c).col := by
  unfold chr_step
  by_cases h10 : c = Char.ofNat 10
  · rw [if_pos h10, if_pos h10]
    exact ⟨by rw [hln], rfl⟩
  · rw [if_neg h10, if_neg h10]
    by_cases h13 : c = Char.ofNat 13
    · rw [if_pos h13, if_pos h13]; exact ⟨hln, hcol⟩
    · rw [if_neg h13, if_neg h13]
      exact ⟨hln, by rw [hcol]⟩

theorem open_step_fields (sc : xml_schema) (st : xml_state) (name : String) :
    (open_step sc st name).buffers = st.buffers ∧
      (open_step sc st name).err_handler = st.err_handler ∧
      (open_step sc st name).line = st.line ∧ (open_step sc st name).col = st.col ∧
      (open_step sc st name).tag_depth = st.tag_depth + 1 ∧
      (open_step sc st name).handle_tag_called = true :=
  ⟨rfl, rfl, rfl, rfl, rfl, rfl⟩

theorem open_step_scan (sc : xml_schema) (st : xml_state) (name : String)
    (hd : st.tag_depth < sc.max_tag_depth) :
    (open_step sc st name).tag_levels
        = (scan_settings sc st.tag_levels st.target_setting st.tag_depth name).1 ∧
      (open_step sc st name).target_setting
        = (scan_settings sc st.tag_levels st.target_setting st.tag_depth name).2 := by
  simp only [open_step]
  rw [if_pos hd]
  exact ⟨rfl, rfl⟩

theorem open_step_noscan (sc : xml_schema) (st : xml_state) (name : String)
    (hd : ¬ st.tag_depth < sc.max_tag_depth) :
    (open_step sc st name).tag_levels = st.tag_levels ∧
      (open_step sc st name).target_setting = st.target_setting := by
  simp only [open_step]
  rw [if_neg hd]
  exact ⟨rfl, rfl⟩

theorem content_step_skip (sc : xml_schema) (st : xml_state) (content : String)
    (hg : ¬ (st.tag_levels.getD st.target_setting 0 = st.tag_depth ∧ is_final_tag sc st)) :
    content_step sc st content = st := by
  unfold content_step
  rw [if_neg hg]

theorem content_step_copy (sc : xml_schema) (st : xml_state) (content : String)
    (hg : st.tag_levels.getD st.target_setting 0 = st.tag_depth ∧ is_final_tag sc st) :
    content_step sc st content =
      { st with
          err_handler :=
            if content.length > 32 then
              st.err_handler.add_error (code_pos 3 (st.col : Int) (st.line : Int))
            else st.err_handler,
          buffers := st.buffers.set st.target_setting (content.take 32),
          tag_levels := st.tag_levels.set st.target_setting 0 } := by
  unfold content_step
  rw [if_pos hg]

/-! ### A parser state over a schema stays well formed -/

/-- The selected target is in range and the error handler retains the
capacity and storage size it was constructed with. -/
def xml_wf (sc : xml_schema) (st : xml_state) : Prop :=
  st.target_setting < sc.tags.length ∧
    st.err_handler.cap = sc.tags.length ∧
    st.err_handler.slots.length = sc.tags.length

theorem step_wf (sc : xml_schema) (st : xml_state) (it : doc_item)
    (h : xml_wf sc st) : xml_wf sc (doc_step sc st it) := by
  obtain ⟨ht, hcap, hlen⟩ := h
  cases it with
  | chr c =>
    show xml_wf sc (chr_step st c)
    obtain ⟨_, _, htg, _, _, herr⟩ := chr_step_fields st c
    exact ⟨by rw [htg]; exact ht, by rw [herr]; exact hcap, by rw [herr]; exact hlen⟩
  | open_tag name =>
    show xml_wf sc (open_step sc st name)
    obtain ⟨_, herr, _, _, _, _⟩ := open_step_fields sc st name
    by_cases hd : st.tag_depth < sc.max_tag_depth
    · obtain ⟨_, htg⟩ := open_step_scan sc st name hd
      exact ⟨by rw [htg]; exact scan_settings_target_lt sc _ _ _ _ ht,
        by rw [herr]; exact hcap, by rw [herr]; exact hlen⟩
    · obtain ⟨_, htg⟩ := open_step_noscan sc st name hd
      exact ⟨by rw [htg]; exact ht, by rw [herr]; exact hcap, by rw [herr]; exact hlen⟩
  | close_tag => exact ⟨ht, hcap, hlen⟩
  | text content =>
    show xml_wf sc (content_step sc st content)
    by_cases hg : st.tag_levels.getD st.target_setting 0 = st.tag_depth ∧ is_final_tag sc st
    · rw [content_step_copy sc st content hg]
      refine ⟨ht, ?_, ?_⟩
      · show (if content.length > 32 then
            st.err_handler.add_error (code_pos 3 (st.col : Int) (st.line : Int))
          else st.err_handler).cap = sc.tags.length
        by_cases hl : content.length > 32
        · rw [if_pos hl, (add_error_shape _ _).1]; exact hcap
        · rw [if_neg hl]; exact hcap
      · show (if content.length > 32 then
            st.err_handler.add_error (code_pos 3 (st.col : Int) (st.line : Int))
          else st.err_handler).slots.length = sc.tags.length
        by_cases hl : content.length > 32
        · rw [if_pos hl, (add_error_shape _ _).2]; exact hlen
        · rw [if_neg hl]; exact hlen
    · rw [content_step_skip sc st content hg]
      exact ⟨ht, hcap, hlen⟩

theorem run_wf (sc : xml_schema) (doc : List doc_item) :
    ∀ st : xml_state, xml_wf sc st → xml_wf sc (run_items sc st doc) := by
  induction doc with
  | nil => intro st h; exact h
  | cons it rest ih =>
    intro st h
    show xml_wf sc (run_items sc (doc_step sc st it) rest)
    exact ih _ (step_wf sc st it h)

theorem reset_wf (sc : xml_schema) (st : xml_state) (h : xml_wf sc st) :
    xml_wf sc (reset_parsing sc st) :=
  ⟨h.1, h.2.1, h.2.2⟩

/-! ### verify_parsing as a pure sequence of error codes -/

/-- The codes verify_parsing appends, read off the final parsing state. -/
def verify_codes (st : xml_state) : List Nat :=
  (if st.tag_depth > 0 then [code_mk 1 2 st.tag_depth]
    else if st.tag_depth < 0 then [code_mk 1 1 (-st.tag_depth)] else [])
    ++ (if ¬ st.handle_tag_called then [code_pos 5 (st.col : Int) (st.line : Int)] else [])

theorem verify_err_eq (st : xml_state) :
    (verify_parsing st).err_handler = st.err_handler.add_all (verify_codes st) := by
  simp only [verify_parsing, verify_codes, error_handler.add_all]
  by_cases hA : st.tag_depth > 0
  · simp only [if_pos hA]
    by_cases hC : st.handle_tag_called <;> simp [hC]
  · simp only [if_neg hA]
    by_cases hB : st.tag_depth < 0
    · simp only [if_pos hB]
      by_cases hC : st.handle_tag_called <;> simp [hC]
    · simp only [if_neg hB]
      by_cases hC : st.handle_tag_called <;> simp [hC]

theorem verify_fields (st : xml_state) :
    (verify_parsing st).buffers = st.buffers ∧
      (verify_parsing st).tag_levels = st.tag_levels ∧
      (verify_parsing st).target_setting = st.target_setting ∧
      (verify_parsing st).tag_depth = st.tag_depth ∧
      (verify_parsing st).handle_tag_called = st.handle_tag_called ∧
      (verify_parsing st).line = st.line ∧ (verify_parsing st).col = st.col := by
  simp only [verify_parsing]
  by_cases hA : st.tag_depth > 0
  · simp only [if_pos hA]
    by_cases hC : st.handle_tag_called <;> simp [hC]
  · simp only [if_neg hA]
    by_cases hB : st.tag_depth < 0
    · simp only [if_pos hB]
      by_cases hC : st.handle_tag_called <;> simp [hC]
    · simp only [if_neg hB]
      by_cases hC : st.handle_tag_called <;> simp [hC]

theorem verify_codes_eq (s t : xml_state) (hdp : s.tag_depth = t.tag_depth)
    (hcl : s.handle_tag_called = t.handle_tag_called) (hln : s.line = t.line)
    (hcol : s.col = t.col) : verify_codes s = verify_codes t := by
  unfold verify_codes
  rw [hdp, hcl, hln, hcol]

theorem verify_wf (sc : xml_schema) (st : xml_state) (h : xml_wf sc st) :
    xml_wf sc (verify_parsing st) := by
  obtain ⟨h1, h2, h3⟩ := h
  refine ⟨?_, ?_, ?_⟩
  · rw [(verify_fields st).2.2.1]; exact h1
  · rw [verify_err_eq st, add_all_cap]; exact h2
  · rw [verify_err_eq st, add_all_len]; exact h3

/-! ### Two runs of the same stream stay in lock step

The first run starts from a reset of a fresh parser, the second from a
reset of the parser after the first parse.  reset_parsing leaves two
fields behind — the tag depth (zero again when the first document was
balanced) and the selected target.  As long as no setting has matched,
all tag levels are zero, so a stale target selection is harmless once
every root tag is nonempty and the maximum depth is positive; after the
first match both runs select the same target. -/

/-- The lock-step relation: all control state equal except possibly the
selected target, which may differ only while every tag level is zero;
the buffers of both runs are the same write log applied to their
respective starting buffers. -/
def rel_run (sc : xml_schema) (B1 B2 : List String) (s t : xml_state) : Prop :=
  (s.tag_levels = t.tag_levels ∧ s.tag_depth = t.tag_depth ∧
      s.handle_tag_called = t.handle_tag_called ∧
      rel_err s.err_handler t.err_handler ∧
      s.line = t.line ∧ s.col = t.col ∧
      s.target_setting < sc.tags.length ∧ t.target_setting < sc.tags.length ∧
      (s.target_setting = t.target_setting ∨ ∀ i, s.tag_levels.getD i 0 = 0)) ∧
    ∃ W, s.buffers = apply_writes W B1 ∧ t.buffers = apply_writes W B2

theorem rel_step (sc : xml_schema) (hmax : 0 < sc.max_tag_depth)
    (hroot : ∀ i, i < sc.tags.length → tag_at sc i 0 ≠ "")
    (B1 B2 : List String) (it : doc_item) (s t : xml_state)
    (h : rel_run sc B1 B2 s t) :
    rel_run sc B1 B2 (doc_step sc s it) (doc_step sc t it) := by
  obtain ⟨⟨hlv, hdp, hcl, herr, hln, hcol, hs_lt, ht_lt, hdisj⟩, W, hbs, hbt⟩ := h
  cases it with
  | chr c =>
    show rel_run sc B1 B2 (chr_step s c) (chr_step t c)
    obtain ⟨hb2, hlv2, htg2, hdp2, hcl2, herr2⟩ := chr_step_fields s c
    obtain ⟨hb3, hlv3, htg3, hdp3, hcl3, herr3⟩ := chr_step_fields t c
    obtain ⟨hl4, hc4⟩ := chr_step_pos s t c hln hcol
    refine ⟨⟨?_, ?_, ?_, ?_, hl4, hc4, ?_, ?_, ?_⟩, W, ?_, ?_⟩
    · rw [hlv2, hlv3, hlv]
    · rw [hdp2, hdp3, hdp]
    · rw [hcl2, hcl3, hcl]
    · rw [herr2, herr3]; exact herr
    · rw [htg2]; exact hs_lt
    · rw [htg3]; exact ht_lt
    · rcases hdisj with hq | hq
      · exact Or.inl (by rw [htg2, htg3, hq])
      · exact Or.inr (fun i => by rw [hlv2]; exact hq i)
    · rw [hb2]; exact hbs
    · rw [hb3]; exact hbt
  | open_tag name =>
    show rel_run sc B1 B2 (open_step sc s name) (open_step sc t name)
    obtain ⟨hb2, herr2, hln2, hcol2, hdp2, hcl2⟩ := open_step_fields sc s name
    obtain ⟨hb3, herr3, hln3, hcol3, hdp3, hcl3⟩ := open_step_fields sc t name
    by_cases hd : s.tag_depth < sc.max_tag_depth
    · obtain ⟨hlv2, htg2⟩ := open_step_scan sc s name hd
      obtain ⟨hlv3, htg3⟩ := open_step_scan sc t name (by rw [← hdp]; exact hd)
      rw [← hdp, ← hlv] at hlv3 htg3
      obtain ⟨hL, hT⟩ :=
        scan_settings_rel sc s.tag_levels s.tag_depth name s.target_setting t.target_setting
      refine ⟨⟨?_, ?_, ?_, ?_, ?_, ?_, ?_, ?_, ?_⟩, W, ?_, ?_⟩
      · rw [hlv2, hlv3]; exact hL
      · rw [hdp2, hdp3, hdp]
      · rw [hcl2, hcl3]
      · rw [herr2, herr3]; exact herr
      · rw [hln2, hln3, hln]
      · rw [hcol2, hcol3, hcol]
      · rw [htg2]; exact scan_settings_target_lt sc _ _ _ _ hs_lt
      · rw [htg3]; exact scan_settings_target_lt sc _ _ _ _ ht_lt
      · rcases hT with heq | ⟨ha, hb4⟩
        · exact Or.inl (by rw [htg2, htg3]; exact heq)
        · rcases hdisj with htgt | hz
          · refine Or.inl ?_
            rw [htg2, htg3, ha, hb4]
            exact htgt
          · refine Or.inr (fun i => ?_)
            rw [hlv2, ha]
            exact hz i
      · rw [hb2]; exact hbs
      · rw [hb3]; exact hbt
    · obtain ⟨hlv2, htg2⟩ := open_step_noscan sc s name hd
      obtain ⟨hlv3, htg3⟩ := open_step_noscan sc t name (by rw [← hdp]; exact hd)
      refine ⟨⟨?_, ?_, ?_, ?_, ?_, ?_, ?_, ?_, ?_⟩, W, ?_, ?_⟩
      · rw [hlv2, hlv3]; exact hlv
      · rw [hdp2, hdp3, hdp]
      · rw [hcl2, hcl3]
      · rw [herr2, herr3]; exact herr
      · rw [hln2, hln3, hln]
      · rw [hcol2, hcol3, hcol]
      · rw [htg2]; exact hs_lt
      · rw [htg3]; exact ht_lt
      · rcases hdisj with hq | hq
        · exact Or.inl (by rw [htg2, htg3, hq])
        · exact Or.inr (fun i => by rw [hlv2]; exact hq i)
      · rw [hb2]; exact hbs
      · rw [hb3]; exact hbt
  | close_tag =>
    refine ⟨⟨hlv, ?_, hcl, herr, hln, hcol, hs_lt, ht_lt, hdisj⟩, W, hbs, hbt⟩
    show s.tag_depth - 1 = t.tag_depth - 1
    rw [hdp]
  | text content =>
    show rel_run sc B1 B2 (content_step sc s content) (content_step sc t content)
    rcases hdisj with htgt | hzero
    · by_cases hg : s.tag_levels.getD s.target_setting 0 = s.tag_depth ∧ is_final_tag sc s
      · have hgt : t.tag_levels.getD t.target_setting 0 = t.tag_depth ∧ is_final_tag sc t := by
          constructor
          · rw [← hlv, ← htgt, ← hdp]; exact hg.1
          · rcases hg.2 with hfin | ⟨hlt2, hemp⟩
            · exact Or.inl (by rw [← hdp]; exact hfin)
            · exact Or.inr ⟨by rw [← hdp]; exact hlt2, by rw [← hdp, ← htgt]; exact hemp⟩
        rw [content_step_copy sc s content hg, content_step_copy sc t content hgt,
            ← hdp, ← hlv, ← htgt, ← hln, ← hcol]
        refine ⟨⟨?_, rfl, hcl, ?_, rfl, rfl, hs_lt, ?_, Or.inl rfl⟩,
          W ++ [(s.target_setting, content.take 32)], ?_, ?_⟩
        · show s.tag_levels.set s.target_setting 0 = s.tag_levels.set s.target_setting 0
          rfl
        · show rel_err
            (if content.length > 32 then
              s.err_handler.add_error (code_pos 3 (s.col : Int) (s.line : Int))
            else s.err_handler)
            (if content.length > 32 then
              t.err_handler.add_error (code_pos 3 (s.col : Int) (s.line : Int))
            else t.err_handler)
          by_cases hl : content.length > 32
          · rw [if_pos hl, if_pos hl]
            exact rel_err_add _ _ _ herr
          · rw [if_neg hl, if_neg hl]
            exact herr
        · exact hs_lt
        · show s.buffers.set s.target_setting (content.take 32)
            = apply_writes (W ++ [(s.target_setting, content.take 32)]) B1
          rw [apply_writes_snoc, hbs]
        · show t.buffers.set s.target_setting (content.take 32)
            = apply_writes (W ++ [(s.target_setting, content.take 32)]) B2
          rw [apply_writes_snoc, hbt]
      · have hgt : ¬ (t.tag_levels.getD t.target_setting 0 = t.tag_depth
            ∧ is_final_tag sc t) := by
          intro hc
          apply hg
          constructor
          · rw [hlv, htgt, hdp]; exact hc.1
          · rcases hc.2 with hfin | ⟨hlt2, hemp⟩
            · exact Or.inl (by rw [hdp]; exact hfin)
            · exact Or.inr ⟨by rw [hdp]; exact hlt2, by rw [hdp, htgt]; exact hemp⟩
        rw [content_step_skip sc s content hg, content_step_skip sc t content hgt]
        exact ⟨⟨hlv, hdp, hcl, herr, hln, hcol, hs_lt, ht_lt, Or.inl htgt⟩, W, hbs, hbt⟩
    · by_cases hd0 : s.tag_depth = 0
      · have hfs : ¬ is_final_tag sc s := by
          rintro (hf | ⟨hlt2, hemp⟩)
          · rw [hd0] at hf; omega
          · rw [hd0] at hemp; exact hroot s.target_setting hs_lt hemp
        have hft : ¬ is_final_tag sc t := by
          rintro (hf | ⟨hlt2, hemp⟩)
          · rw [← hdp, hd0] at hf; omega
          · rw [← hdp, hd0] at hemp; exact hroot t.target_setting ht_lt hemp
        rw [content_step_skip sc s content (fun hc => hfs hc.2),
            content_step_skip sc t content (fun hc => hft hc.2)]
        exact ⟨⟨hlv, hdp, hcl, herr, hln, hcol, hs_lt, ht_lt, Or.inr hzero⟩, W, hbs, hbt⟩
      · have hgs : ¬ (s.tag_levels.getD s.target_setting 0 = s.tag_depth
            ∧ is_final_tag sc s) := fun hc =>
          hd0 (hc.1.symm.trans (hzero s.target_setting))
        have hgt : ¬ (t.tag_levels.getD t.target_setting 0 = t.tag_depth
            ∧ is_final_tag sc t) := by
          intro hc
          apply hd0
          have h1 : t.tag_levels.getD t.target_setting 0 = 0 := by
            rw [← hlv]; exact hzero t.target_setting
          rw [hdp, ← hc.1, h1]
        rw [content_step_skip sc s content hgs, content_step_skip sc t content hgt]
        exact ⟨⟨hlv, hdp, hcl, herr, hln, hcol, hs_lt, ht_lt, Or.inr hzero⟩, W, hbs, hbt⟩

theorem rel_run_fold (sc : xml_schema) (hmax : 0 < sc.max_tag_depth)
    (hroot : ∀ i, i < sc.tags.length → tag_at sc i 0 ≠ "")
    (B1 B2 : List String) (doc : List doc_item) :
    ∀ s t : xml_state, rel_run sc B1 B2 s t →
      rel_run sc B1 B2 (run_items sc s doc) (run_items sc t doc) := by
  induction doc with
  | nil => intro s t h; exact h
  | cons it rest ih =>
    intro s t h
    show rel_run sc B1 B2 (run_items sc (doc_step sc s it) rest)
      (run_items sc (doc_step sc t it) rest)
    exact ih _ _ (rel_step sc hmax hroot B1 B2 it s t h)

theorem parse_document_ne (sc : xml_schema) (st : xml_state) (doc : List doc_item)
    (hne : ¬ (doc.isEmpty = true)) :
    parse_document sc st doc = verify_parsing (run_items sc (reset_parsing sc st) doc) := by
  unfold parse_document
  rw [if_neg hne]

/-- Claim C4 (amended): parsing the same nonempty document twice with the
same parser over a schema with at least one setting, a positive maximum
tag depth and nonempty root tags reproduces the error buffer and the
per-setting value buffers of the first parse, provided the first parse
ends with a balanced tag depth.  (As stated the claim is false: the
empty document and unbalanced documents leave state behind that the
second parse observes.) -/
theorem C4_nonempty_parse_idempotent (sc : xml_schema) (doc : List doc_item)
    (hn : 0 < sc.tags.length) (hmax : 0 < sc.max_tag_depth)
    (hroot : ∀ i, i < sc.tags.length → tag_at sc i 0 ≠ "")
    (hne : doc ≠ [])
    (hbal : (parse_document sc (fresh_xml_state sc) doc).tag_depth = 0) :
    error_handler.error_list (xml_state.err_handler
        (parse_document sc (parse_document sc (fresh_xml_state sc) doc) doc))
      = error_handler.error_list (xml_state.err_handler
          (parse_document sc (fresh_xml_state sc) doc)) ∧
    xml_state.buffers
        (parse_document sc (parse_document sc (fresh_xml_state sc) doc) doc)
      = xml_state.buffers (parse_document sc (fresh_xml_state sc) doc) := by
  have hne' : ¬ (doc.isEmpty = true) := by
    cases doc with
    | nil => exact absurd rfl hne
    | cons a l => simp
  rw [parse_document_ne sc (parse_document sc (fresh_xml_state sc) doc) doc hne',
      parse_document_ne sc (fresh_xml_state sc) doc hne']
  rw [parse_document_ne sc (fresh_xml_state sc) doc hne'] at hbal
  have hwf1 : xml_wf sc (fresh_xml_state sc) :=
    ⟨hn, rfl, by simp [fresh_xml_state, error_handler.mk_fresh]⟩
  have hwf4 : xml_wf sc
      (verify_parsing (run_items sc (reset_parsing sc (fresh_xml_state sc)) doc)) :=
    verify_wf sc _ (run_wf sc doc _ (reset_wf sc _ hwf1))
  have hbal2 :
      (run_items sc (reset_parsing sc (fresh_xml_state sc)) doc).tag_depth = 0 := by
    rw [← (verify_fields _).2.2.2.1]
    exact hbal
  have hrel0 : rel_run sc (List.replicate sc.tags.length "")
      (xml_state.buffers
        (verify_parsing (run_items sc (reset_parsing sc (fresh_xml_state sc)) doc)))
      (reset_parsing sc (fresh_xml_state sc))
      (reset_parsing sc
        (verify_parsing (run_items sc (reset_parsing sc (fresh_xml_state sc)) doc))) := by
    refine ⟨⟨rfl, ?_, rfl, ⟨?_, rfl, ?_, rfl⟩, rfl, rfl, ?_, ?_, Or.inr ?_⟩, [], rfl, rfl⟩
    · exact hbal.symm
    · exact hwf4.2.1.symm
    · show (List.replicate sc.tags.length (0 : Nat)).length = _
      rw [List.length_replicate]
      exact hwf4.2.2.symm
    · exact hn
    · exact hwf4.1
    · exact fun i => getD_replicate_zero sc.tags.length i
  have hrel := rel_run_fold sc hmax hroot _ _ doc _ _ hrel0
  obtain ⟨⟨_, hdp, hcl, herr, hln, hcol, _, _, _⟩, W, hbs, hbt⟩ := hrel
  constructor
  · rw [verify_err_eq, verify_err_eq,
      verify_codes_eq _ _ hdp hcl hln hcol]
    exact (rel_err_add_all _ _ _ herr).2.2.2.symm
  · rw [(verify_fields _).1, (verify_fields _).1]
    rw [hbt, (verify_fields _).1, hbs, apply_writes_idem, ← hbs]

/-- A balanced one-tag document over the two-setting schema. -/
def c4doc : List doc_item := [doc_item.open_tag "a", doc_item.text "x", doc_item.close_tag]

theorem C4_nonempty_parse_idempotent_witness :
    error_handler.error_list (xml_state.err_handler
        (parse_document sc0 (parse_document sc0 (fresh_xml_state sc0) c4doc) c4doc))
      = error_handler.error_list (xml_state.err_handler
          (parse_document sc0 (fresh_xml_state sc0) c4doc)) ∧
    xml_state.buffers
        (parse_document sc0 (parse_document sc0 (fresh_xml_state sc0) c4doc) c4doc)
      = xml_state.buffers (parse_document sc0 (fresh_xml_state sc0) c4doc) :=
  C4_nonempty_parse_idempotent sc0 c4doc (by decide) (by decide) (by decide)
    (List.cons_ne_nil _ _) (by decide)

end Cfg
